import Mathlib

/-!
Verification of the belt/tread curve construction core of the Truck Auto
Rigger repository (`scripts/belt_rig_builder.py`).

The Python floating point arithmetic is embedded as exact real arithmetic.
Maya's `MVector` becomes `Vec3`; `Circle`, `TangentLine`, the path parts of
`BeltCurve` and the traversal `_build_belt_path` are translated directly.
Python exceptions (`ZeroDivisionError` from `/ (2 * d)`, `ValueError` from
`math.sqrt` of a negative number, `ValueError` from `min()` of an empty
sequence, `AttributeError` from `None.direction`) are modelled with an
`Except Err` result.  Python compares `Circle` objects by identity (the class
defines no `__eq__`), so circles are paired with their list index, which
serves as the identity surrogate: every list entry of `_build_belt_path` is a
freshly constructed object.  The `while` loop of `_build_belt_path` is
embedded with explicit fuel; `none` means the loop did not finish within the
given fuel.
-/

namespace BeltRig

noncomputable section

open Classical

/-- Three dimensional vector, the embedding of Maya's `MVector`. -/
structure Vec3 where
  x : ℝ
  y : ℝ
  z : ℝ

instance : Zero Vec3 := ⟨⟨0, 0, 0⟩⟩

instance : Add Vec3 := ⟨fun a b => ⟨a.x + b.x, a.y + b.y, a.z + b.z⟩⟩

instance : Sub Vec3 := ⟨fun a b => ⟨a.x - b.x, a.y - b.y, a.z - b.z⟩⟩

/-- Vector times scalar, the `MVector * float` operation. -/
instance : HMul Vec3 ℝ Vec3 := ⟨fun v t => ⟨v.x * t, v.y * t, v.z * t⟩⟩

/-- Dot product of two vectors. -/
def Vec3.dot (a b : Vec3) : ℝ := a.x * b.x + a.y * b.y + a.z * b.z

/-- Euclidean length, the embedding of `MVector.length()`. -/
def Vec3.length (v : Vec3) : ℝ := Real.sqrt (v.x ^ 2 + v.y ^ 2 + v.z ^ 2)

/-- Normalized copy, the embedding of `MVector.normal()`; the zero vector is
returned unchanged. -/
def Vec3.normal (v : Vec3) : Vec3 :=
  if v.length = 0 then v else v * (1 / v.length)

/-- Angle between two vectors in `[0, π]`, the embedding of
`MVector.angle()`. -/
def Vec3.angle (a b : Vec3) : ℝ :=
  Real.arccos (a.dot b / (a.length * b.length))

/-- Result kinds of a computation.  The first four are the Python exceptions
the source can actually raise.  `degenerateGeometry`, `insufficientCircles`
and `noTangentFound` are modelled from the spec: §7 demands these error kinds
for the core, but no such classes exist anywhere in the repository, so no
computation ever produces them. -/
inductive Err where
  | valueError
  | attributeError
  | zeroDivision
  | mathDomain
  | degenerateGeometry
  | insufficientCircles
  | noTangentFound
deriving DecidableEq

/-- The embedding of the `Circle` class: a center and a radius. -/
structure Circle where
  center : Vec3
  radius : ℝ

/-- The embedding of `Circle.find_intersection`.  The Python code destructures
each circle as `x, y, _, r` (the z coordinate is dropped), raises
`ZeroDivisionError` when `d == 0` and `ValueError` when `math.sqrt` receives
a negative argument. -/
def Circle.find_intersection (self other : Circle) : Except Err (Vec3 × Vec3) :=
  let x0 := self.center.x
  let y0 := self.center.y
  let r0 := self.radius
  let x1 := other.center.x
  let y1 := other.center.y
  let r1 := other.radius
  let d := Real.sqrt ((x1 - x0) ^ 2 + (y1 - y0) ^ 2)
  if d = 0 then .error .zeroDivision
  else
    let a := (r0 ^ 2 - r1 ^ 2 + d ^ 2) / (2 * d)
    if r0 ^ 2 - a ^ 2 < 0 then .error .mathDomain
    else
      let h := Real.sqrt (r0 ^ 2 - a ^ 2)
      let x2 := x0 + a * (x1 - x0) / d
      let y2 := y0 + a * (y1 - y0) / d
      .ok (⟨x2 + h * (y1 - y0) / d, y2 - h * (x1 - x0) / d, 0⟩,
           ⟨x2 - h * (y1 - y0) / d, y2 + h * (x1 - x0) / d, 0⟩)

/-- The embedding of `Circle.create_bisector_circle`. -/
def Circle.create_bisector_circle (self other : Circle) : Circle :=
  let c := (other.center - self.center) * (0.5 : ℝ)
  ⟨c + self.center, c.length⟩

/-- The embedding of `Circle.create_difference_circle` with
`MIN_DIFF_VALUE = 0.0001`. -/
def Circle.create_difference_circle (self other : Circle) : Circle :=
  ⟨self.center, max |self.radius - other.radius| 0.0001⟩

/-- The embedding of `Circle.find_positive_external_tangent_normal`. -/
def Circle.find_positive_external_tangent_normal (self other : Circle) :
    Except Err Vec3 :=
  let main := if self.radius > other.radius then self else other
  let target := if self.radius > other.radius then other else self
  let bisector := main.create_bisector_circle target
  let difference := main.create_difference_circle target
  (bisector.find_intersection difference).map fun pn =>
    ((if self.radius > other.radius then pn.1 else pn.2) - main.center).normal

/-- The embedding of the `TangentLine` shape: its constructor computes the
normal, both end points, the direction and the scalar length. -/
structure TangentLine where
  normal : Vec3
  start : Vec3
  endPt : Vec3
  direction : Vec3
  length : ℝ

/-- The embedding of `TangentLine.__init__`, propagating any exception of the
tangent-normal computation. -/
def mkTangentLine (a b : Circle) : Except Err TangentLine :=
  (a.find_positive_external_tangent_normal b).map fun n =>
    let s := n * a.radius + a.center
    let e := n * b.radius + b.center
    let base := e - s
    { normal := n, start := s, endPt := e,
      direction := base.normal, length := base.length }

/-- MINIMAL_SIZE of `AbstractShape`. -/
def MINIMAL_SIZE : ℝ := 0.001

/-- The emission gate of `AbstractShape.trace_path`: the host curve is built
(and a nonempty curve name returned) exactly when `is_legal` holds, i.e. when
start and end are at least `MINIMAL_SIZE` apart; otherwise `""` is returned
and the shape is skipped. -/
def tracePathEmits (s e : Vec3) : Bool :=
  decide (MINIMAL_SIZE ≤ (s - e).length)

/-- The embedding of `BeltCurve._Part`: the circle it belongs to (with its
list index as identity surrogate), the arc's start and end points and the
tangent leaving the circle (initially `None`). -/
structure Part where
  idx : ℕ
  circle : Circle
  arcStart : Vec3
  arcEnd : Vec3
  tangent : Option TangentLine

/-- Emission of one path part by `BeltCurve._trace_curve`: the arc and then
the tangent are passed through `trace_path`; a `None` tangent would raise
`AttributeError`.  The two booleans tell whether the arc and the tangent
curve are emitted. -/
def traceEmits (p : Part) : Except Err (Bool × Bool) :=
  match p.tangent with
  | none => .error .attributeError
  | some t => .ok (tracePathEmits p.arcStart p.arcEnd, tracePathEmits t.start t.endPt)

/-- Pair every circle of a list with its position, the identity surrogate for
Python's `self == node` object comparison. -/
def withIdx : List Circle → ℕ → List (ℕ × Circle)
  | [], _ => []
  | c :: cs, i => (i, c) :: withIdx cs (i + 1)

/-- The embedding of `min(circles, key=lambda o: o.center.x)`: the first
element with minimal center x, `none` for the empty list (Python raises
`ValueError`). -/
def argminX : List (ℕ × Circle) → Option (ℕ × Circle)
  | [] => none
  | p :: rest =>
      some (rest.foldl (fun best q => if q.2.center.x < best.2.center.x then q else best) p)

/-- The candidate scan of `Circle.find_external_tangent_in_system`: nodes
identical to the caller are skipped, a tangent is built to every other node
(propagating its exceptions), and the running best is replaced exactly when
the new angle is strictly smaller (the Python code starts from `math.inf`,
which every angle beats, so `none` models the initial state). -/
def findExtLoop (self : ℕ × Circle) (guide : Vec3) :
    List (ℕ × Circle) → Option (ℝ × TangentLine × (ℕ × Circle)) →
    Except Err (Option (ℝ × TangentLine × (ℕ × Circle)))
  | [], best => .ok best
  | node :: rest, best =>
    if node.1 = self.1 then findExtLoop self guide rest best
    else
      match mkTangentLine self.2 node.2 with
      | .error e => .error e
      | .ok t =>
        match best with
        | none => findExtLoop self guide rest (some (guide.angle t.direction, t, node))
        | some b =>
          if guide.angle t.direction < b.1 then
            findExtLoop self guide rest (some (guide.angle t.direction, t, node))
          else
            findExtLoop self guide rest best

/-- The embedding of `Circle.find_external_tangent_in_system`, returning the
closest-angle tangent and its circle, or `none` when no candidate exists. -/
def findExtTangent (self : ℕ × Circle) (guide : Vec3) (nodes : List (ℕ × Circle)) :
    Except Err (Option (TangentLine × (ℕ × Circle))) :=
  (findExtLoop self guide nodes none).map (Option.map fun b => (b.2.1, b.2.2))

/-- Replace the last element of a list, the embedding of mutating
`path[-1]`. -/
def updateLast (f : α → α) : List α → List α
  | [] => []
  | [a] => [f a]
  | a :: b :: rest => a :: updateLast f (b :: rest)

/-- The wrap-up step of `_build_belt_path`: the final duplicate entry is
popped and its arc start becomes the first entry's arc start. -/
def wrapPath (path : List Part) : List Part :=
  match path.getLast? with
  | none => path
  | some last => path.dropLast.modifyHead fun p => { p with arcStart := last.arcStart }

/-- Fresh path part for a node, with the arc's start point extrapolated from
the incoming tangent normal (`Arc.extrapolate_start_point`). -/
def mkPart (node : ℕ × Circle) (t : TangentLine) : Part :=
  { idx := node.1, circle := node.2,
    arcStart := t.normal * node.2.radius + node.2.center,
    arcEnd := 0, tangent := none }

/-- One `while` iteration of `_build_belt_path`, with fuel.  The loop guard
`starting_node != current_node` is checked first (object identity, hence the
index comparison); a `None` tangent raises `AttributeError` at
`tangent.direction`; the last part's arc end is extrapolated and its tangent
recorded, then a part for the chosen node is appended and the loop advances
with the tangent's direction as the new guide. -/
def beltLoop (cs : List Circle) (nodes : List (ℕ × Circle)) :
    ℕ → Option ℕ → (ℕ × Circle) → Vec3 → List Part →
    Option (Except Err (List Part × List Circle))
  | 0, starting, current, _, path =>
    if starting = some current.1 then some (.ok (wrapPath path, cs)) else none
  | fuel + 1, starting, current, guide, path =>
    if starting = some current.1 then some (.ok (wrapPath path, cs))
    else
      match findExtTangent current guide nodes with
      | .error e => some (.error e)
      | .ok none => some (.error .attributeError)
      | .ok (some (t, next)) =>
        beltLoop cs nodes fuel (some (starting.getD current.1)) next t.direction
          (updateLast (fun p =>
              { p with arcEnd := t.normal * p.circle.radius + p.circle.center,
                       tangent := some t }) path
            ++ [mkPart next t])

/-- The embedding of `BeltCurve._build_belt_path`: start at the circle with
minimal x (Python's `min` raises `ValueError` on an empty list), guide
direction `(0, 1, 0)`, one initial path part, then the traversal loop.  The
list of circles is threaded through and returned next to the path so that
the read-only property of the input can be stated. -/
def buildBeltPath (circles : List Circle) (fuel : ℕ) :
    Option (Except Err (List Part × List Circle)) :=
  match argminX (withIdx circles 0) with
  | none => some (.error .valueError)
  | some start =>
    beltLoop circles (withIdx circles 0) fuel none start ⟨0, 1, 0⟩
      [{ idx := start.1, circle := start.2, arcStart := 0, arcEnd := 0, tangent := none }]

/-- Unit-radius circle at the origin. -/
def cS0 : Circle := ⟨⟨0, 0, 0⟩, 1⟩

/-- Unit-radius circle whose center is `1/6000` to the right of `cS0`:
the tangent between the two is well defined (the gap exceeds
`MIN_DIFF_VALUE = 1e-4`) but shorter than `MINIMAL_SIZE = 1e-3`. -/
def cS1 : Circle := ⟨⟨1 / 6000, 0, 0⟩, 1⟩

/-- Two-circle system with a degenerate (sub-`MINIMAL_SIZE`) tangent. -/
def smallPair : List Circle := [cS0, cS1]

/-- First wheel of the spec's concrete scenario: center `(0,0)`, radius 10. -/
def cW0 : Circle := ⟨⟨0, 0, 0⟩, 10⟩

/-- Second wheel of the spec's concrete scenario: center `(50,0)`, radius 15. -/
def cW1 : Circle := ⟨⟨50, 0, 0⟩, 15⟩

/-- Third wheel of the spec's concrete scenario: center `(100,0)`, radius 10. -/
def cW2 : Circle := ⟨⟨100, 0, 0⟩, 10⟩

/-- The spec's concrete three-wheel scenario. -/
def wheels : List Circle := [cW0, cW1, cW2]

/-- Equal-radius circles with strictly increasing x but varying y; the greedy
traversal closes the loop early on this arrangement and skips index 1. -/
def zigzag : List Circle :=
  [⟨⟨0, 0, 0⟩, 1⟩, ⟨⟨1, 1, 0⟩, 1⟩, ⟨⟨2, 5, 0⟩, 1⟩, ⟨⟨3, 0, 0⟩, 1⟩]

/-- Tiny equal-radius circle at the origin. -/
def cT0 : Circle := ⟨⟨0, 0, 0⟩, 1 / 50000⟩

/-- Tiny equal-radius circle external to `cT0` (center distance `6e-5`
exceeds the radius sum `4e-5`) but with the centers closer than
`MIN_DIFF_VALUE = 1e-4`. -/
def cT1 : Circle := ⟨⟨3 / 50000, 0, 0⟩, 1 / 50000⟩

/-- A circle of radius `r` sitting on the horizontal row `y = y0` of the
working plane at abscissa `x`; the shape of every circle in a collinear
equal-radius arrangement. -/
def rowCircle (y0 r x : ℝ) : Circle := ⟨⟨x, y0, 0⟩, r⟩

end

/-! ### Vector toolbox -/

@[simp] theorem Vec3.add_x (a b : Vec3) : (a + b).x = a.x + b.x := rfl

@[simp] theorem Vec3.add_y (a b : Vec3) : (a + b).y = a.y + b.y := rfl

@[simp] theorem Vec3.add_z (a b : Vec3) : (a + b).z = a.z + b.z := rfl

@[simp] theorem Vec3.sub_x (a b : Vec3) : (a - b).x = a.x - b.x := rfl

@[simp] theorem Vec3.sub_y (a b : Vec3) : (a - b).y = a.y - b.y := rfl

@[simp] theorem Vec3.sub_z (a b : Vec3) : (a - b).z = a.z - b.z := rfl

@[simp] theorem Vec3.smul_x (v : Vec3) (t : ℝ) : (v * t).x = v.x * t := rfl

@[simp] theorem Vec3.smul_y (v : Vec3) (t : ℝ) : (v * t).y = v.y * t := rfl

@[simp] theorem Vec3.smul_z (v : Vec3) (t : ℝ) : (v * t).z = v.z * t := rfl

@[simp] theorem Vec3.zero_x : (0 : Vec3).x = 0 := rfl

@[simp] theorem Vec3.zero_y : (0 : Vec3).y = 0 := rfl

@[simp] theorem Vec3.zero_z : (0 : Vec3).z = 0 := rfl

@[simp] theorem Vec3.add_mk (a b c d e f : ℝ) :
    (Vec3.mk a b c + Vec3.mk d e f) = Vec3.mk (a + d) (b + e) (c + f) := rfl

@[simp] theorem Vec3.sub_mk (a b c d e f : ℝ) :
    (Vec3.mk a b c - Vec3.mk d e f) = Vec3.mk (a - d) (b - e) (c - f) := rfl

@[simp] theorem Vec3.smul_mk (a b c t : ℝ) :
    (Vec3.mk a b c * t) = Vec3.mk (a * t) (b * t) (c * t) := rfl

@[simp] theorem Vec3.zero_def : (0 : Vec3) = Vec3.mk 0 0 0 := rfl

theorem Vec3.length_mk (a b c : ℝ) :
    (Vec3.mk a b c).length = Real.sqrt (a ^ 2 + b ^ 2 + c ^ 2) := rfl

theorem Vec3.dot_mk (a b c d e f : ℝ) :
    (Vec3.mk a b c).dot (Vec3.mk d e f) = a * d + b * e + c * f := rfl

theorem Vec3.length_nonneg (v : Vec3) : 0 ≤ v.length := Real.sqrt_nonneg _

/-- Evaluate a square root at a perfect square. -/
theorem sqrt_eval {a b : ℝ} (hb : 0 ≤ b) (h : b ^ 2 = a) : Real.sqrt a = b := by
  rw [← h, Real.sqrt_sq hb]

theorem Vec3.length_smul (v : Vec3) (t : ℝ) : (v * t).length = v.length * |t| := by
  rcases v with ⟨a, b, c⟩
  simp only [Vec3.smul_mk, Vec3.length_mk]
  rw [show (a * t) ^ 2 + (b * t) ^ 2 + (c * t) ^ 2
      = (a ^ 2 + b ^ 2 + c ^ 2) * t ^ 2 by ring,
    Real.sqrt_mul (by positivity), Real.sqrt_sq_eq_abs]

theorem Vec3.normal_length {v : Vec3} (h : v.length ≠ 0) : v.normal.length = 1 := by
  have hpos : 0 < v.length := lt_of_le_of_ne (Vec3.length_nonneg v) (Ne.symm h)
  rw [Vec3.normal, if_neg h, Vec3.length_smul, abs_of_pos (by positivity)]
  field_simp

/-- Global antitonicity of `arccos`. -/
theorem arccos_le_arccos_of {a b : ℝ} (h : a ≤ b) :
    Real.arccos b ≤ Real.arccos a := by
  unfold Real.arccos
  have := Real.monotone_arcsin h
  linarith

theorem arccos_lt_arccos_of {a b : ℝ} (ha : -1 ≤ a) (hab : a < b) (hb : b ≤ 1) :
    Real.arccos b < Real.arccos a :=
  Real.strictAntiOn_arccos ⟨ha, le_trans hab.le hb⟩ ⟨le_trans ha hab.le, hb⟩ hab

theorem not_arccos_lt_arccos_of {a b : ℝ} (h : a ≤ b) :
    ¬ Real.arccos a < Real.arccos b := not_lt.mpr (arccos_le_arccos_of h)

/-! ### Shared computation helpers -/

/-- Two identical circles drive the intersection formula's denominator to
zero: the bisector circle's center coincides with the difference circle's
center, so `d = 0` and the Python code raises `ZeroDivisionError`. -/
theorem fpetn_self (c : Circle) :
    c.find_positive_external_tangent_normal c = .error .zeroDivision := by
  rcases c with ⟨⟨a, b, z⟩, r⟩
  simp only [Circle.find_positive_external_tangent_normal, gt_iff_lt, lt_irrefl, if_false,
    Circle.create_bisector_circle, Circle.create_difference_circle, Circle.find_intersection]
  norm_num [Real.sqrt_zero, Except.map]

/-- Evaluation rule for `find_intersection` when both guards pass: supply the
values of the intermediate quantities `d`, `a` and `h`. -/
theorem find_intersection_eval (x0 y0 z0 r0 x1 y1 z1 r1 d a h : ℝ)
    (hd : Real.sqrt ((x1 - x0) ^ 2 + (y1 - y0) ^ 2) = d) (hd0 : ¬ d = 0)
    (ha : (r0 ^ 2 - r1 ^ 2 + d ^ 2) / (2 * d) = a)
    (hpos : ¬ r0 ^ 2 - a ^ 2 < 0)
    (hh : Real.sqrt (r0 ^ 2 - a ^ 2) = h) :
    Circle.find_intersection ⟨⟨x0, y0, z0⟩, r0⟩ ⟨⟨x1, y1, z1⟩, r1⟩ =
      .ok (⟨x0 + a * (x1 - x0) / d + h * (y1 - y0) / d,
            y0 + a * (y1 - y0) / d - h * (x1 - x0) / d, 0⟩,
           ⟨x0 + a * (x1 - x0) / d - h * (y1 - y0) / d,
            y0 + a * (y1 - y0) / d + h * (x1 - x0) / d, 0⟩) := by
  simp only [Circle.find_intersection, hd, ha, hh, if_neg hd0, if_neg hpos]

/-- Evaluation rule for `find_intersection` when the radicand is negative:
the Python code raises `ValueError` from `math.sqrt`. -/
theorem find_intersection_math_domain (x0 y0 z0 r0 x1 y1 z1 r1 d a : ℝ)
    (hd : Real.sqrt ((x1 - x0) ^ 2 + (y1 - y0) ^ 2) = d) (hd0 : ¬ d = 0)
    (ha : (r0 ^ 2 - r1 ^ 2 + d ^ 2) / (2 * d) = a)
    (hneg : r0 ^ 2 - a ^ 2 < 0) :
    Circle.find_intersection ⟨⟨x0, y0, z0⟩, r0⟩ ⟨⟨x1, y1, z1⟩, r1⟩ =
      .error .mathDomain := by
  simp only [Circle.find_intersection, hd, ha, if_neg hd0, if_pos hneg]

/-- Evaluation rule for `mkTangentLine` from a computed normal. -/
theorem mkTangentLine_eval (a b : Circle) (n : Vec3)
    (hn : a.find_positive_external_tangent_normal b = .ok n) :
    mkTangentLine a b = .ok
      { normal := n, start := n * a.radius + a.center, endPt := n * b.radius + b.center,
        direction := (n * b.radius + b.center - (n * a.radius + a.center)).normal,
        length := (n * b.radius + b.center - (n * a.radius + a.center)).length } := by
  simp only [mkTangentLine, hn, Except.map]

/-- Correctness of the two-circle intersection formula: when the centers do
not coincide in the plane and the radicand is nonnegative, both returned
points lie at distance `|r1|` from (the planar projection of) the second
circle's center. -/
theorem find_intersection_ok (c0 c1 : Circle)
    (hq : (c1.center.x - c0.center.x) ^ 2 + (c1.center.y - c0.center.y) ^ 2 ≠ 0)
    (hrad : ((c0.radius ^ 2 - c1.radius ^ 2 +
        ((c1.center.x - c0.center.x) ^ 2 + (c1.center.y - c0.center.y) ^ 2)) /
        (2 * Real.sqrt
          ((c1.center.x - c0.center.x) ^ 2 + (c1.center.y - c0.center.y) ^ 2))) ^ 2
        ≤ c0.radius ^ 2) :
    ∃ pn : Vec3 × Vec3, c0.find_intersection c1 = .ok pn ∧
      (pn.1 - ⟨c1.center.x, c1.center.y, 0⟩).length = |c1.radius| ∧
      (pn.2 - ⟨c1.center.x, c1.center.y, 0⟩).length = |c1.radius| := by
  rcases c0 with ⟨⟨x0, y0, z0⟩, r0⟩
  rcases c1 with ⟨⟨x1, y1, z1⟩, r1⟩
  simp only at hq hrad ⊢
  have hq0 : 0 < (x1 - x0) ^ 2 + (y1 - y0) ^ 2 :=
    lt_of_le_of_ne (by positivity) (Ne.symm hq)
  set s := Real.sqrt ((x1 - x0) ^ 2 + (y1 - y0) ^ 2) with hsdef
  have hs0 : 0 < s := Real.sqrt_pos.mpr hq0
  have hs2 : s ^ 2 = (x1 - x0) ^ 2 + (y1 - y0) ^ 2 := Real.sq_sqrt hq0.le
  simp only [Circle.find_intersection]
  rw [if_neg hs0.ne']
  set a := (r0 ^ 2 - r1 ^ 2 + s ^ 2) / (2 * s) with hadef
  have haa : a ^ 2 ≤ r0 ^ 2 := by
    rw [hadef, hs2]
    exact hrad
  have hkey : 2 * a * s = r0 ^ 2 - r1 ^ 2 + s ^ 2 := by
    rw [hadef]
    field_simp
    ring
  rw [if_neg (not_lt.mpr (by linarith : (0:ℝ) ≤ r0 ^ 2 - a ^ 2))]
  set h := Real.sqrt (r0 ^ 2 - a ^ 2) with hhdef
  have hh2 : h ^ 2 = r0 ^ 2 - a ^ 2 := Real.sq_sqrt (by linarith)
  refine ⟨_, rfl, ?_, ?_⟩
  · simp only [Vec3.sub_mk, Vec3.length_mk]
    rw [show (x0 + a * (x1 - x0) / s + h * (y1 - y0) / s - x1) ^ 2 +
          (y0 + a * (y1 - y0) / s - h * (x1 - x0) / s - y1) ^ 2 + (0 - 0) ^ 2
        = (((x1 - x0) * (a - s) + h * (y1 - y0)) / s) ^ 2 +
          (((y1 - y0) * (a - s) - h * (x1 - x0)) / s) ^ 2 by
        field_simp
        ring]
    rw [show (((x1 - x0) * (a - s) + h * (y1 - y0)) / s) ^ 2 +
          (((y1 - y0) * (a - s) - h * (x1 - x0)) / s) ^ 2 = r1 ^ 2 by
        rw [div_pow, div_pow, div_add_div_same, div_eq_iff (by positivity : s ^ 2 ≠ 0)]
        linear_combination (-((a - s) ^ 2 + h ^ 2)) * hs2 + s ^ 2 * hh2 - s ^ 2 * hkey]
    exact Real.sqrt_sq_eq_abs r1
  · simp only [Vec3.sub_mk, Vec3.length_mk]
    rw [show (x0 + a * (x1 - x0) / s - h * (y1 - y0) / s - x1) ^ 2 +
          (y0 + a * (y1 - y0) / s + h * (x1 - x0) / s - y1) ^ 2 + (0 - 0) ^ 2
        = (((x1 - x0) * (a - s) - h * (y1 - y0)) / s) ^ 2 +
          (((y1 - y0) * (a - s) + h * (x1 - x0)) / s) ^ 2 by
        field_simp
        ring]
    rw [show (((x1 - x0) * (a - s) - h * (y1 - y0)) / s) ^ 2 +
          (((y1 - y0) * (a - s) + h * (x1 - x0)) / s) ^ 2 = r1 ^ 2 by
        rw [div_pow, div_pow, div_add_div_same, div_eq_iff (by positivity : s ^ 2 ≠ 0)]
        linear_combination (-((a - s) ^ 2 + h ^ 2)) * hs2 + s ^ 2 * hh2 - s ^ 2 * hkey]
    exact Real.sqrt_sq_eq_abs r1

/-- Radicand bound for the bisector/difference intersection: the pure
algebraic inequality behind the `math.sqrt` guard. -/
theorem radicand_bound (Q rd t : ℝ) (hQrd : rd ^ 2 ≤ Q) (ht0 : 0 < t)
    (ht2 : t ^ 2 = Q) :
    ((Q * (1 / 2) ^ 2 - rd ^ 2 + Q * (1 / 2) ^ 2) / (2 * (t * (1 / 2)))) ^ 2
      ≤ Q * (1 / 2) ^ 2 := by
  rw [div_pow, div_le_iff₀ (by positivity)]
  nlinarith [mul_nonneg (sq_nonneg rd) (sub_nonneg.mpr hQrd), sq_nonneg rd]

/-- Core of the tangent-normal computation: for planar circles whose center
distance is at least the difference-circle radius `max |Δr| 0.0001`, the
bisector/difference intersection succeeds and both intersection points lie at
exactly that radius from the main circle's center. -/
theorem tangent_core (mx my mr tx ty tr : ℝ)
    (hQ : (max |mr - tr| 0.0001) ^ 2 ≤ (tx - mx) ^ 2 + (ty - my) ^ 2) :
    ∃ pn : Vec3 × Vec3,
      ((Circle.mk ⟨mx, my, 0⟩ mr).create_bisector_circle ⟨⟨tx, ty, 0⟩, tr⟩).find_intersection
        ((Circle.mk ⟨mx, my, 0⟩ mr).create_difference_circle ⟨⟨tx, ty, 0⟩, tr⟩) = .ok pn ∧
      (pn.1 - Vec3.mk mx my 0).length = max |mr - tr| 0.0001 ∧
      (pn.2 - Vec3.mk mx my 0).length = max |mr - tr| 0.0001 := by
  have hrd0 : 0 < max |mr - tr| 0.0001 :=
    lt_of_lt_of_le (by norm_num) (le_max_right _ _)
  have hQ0 : 0 < (tx - mx) ^ 2 + (ty - my) ^ 2 := lt_of_lt_of_le (by positivity) hQ
  have ht0 : 0 < Real.sqrt ((tx - mx) ^ 2 + (ty - my) ^ 2) := Real.sqrt_pos.mpr hQ0
  have ht2 : Real.sqrt ((tx - mx) ^ 2 + (ty - my) ^ 2) ^ 2
      = (tx - mx) ^ 2 + (ty - my) ^ 2 := Real.sq_sqrt hQ0.le
  have eq2 : (mx - ((tx - mx) * 0.5 + mx)) ^ 2 + (my - ((ty - my) * 0.5 + my)) ^ 2
      = ((tx - mx) ^ 2 + (ty - my) ^ 2) * (1 / 2) ^ 2 := by ring
  have eqE : ((tx - mx) * 0.5) ^ 2 + ((ty - my) * 0.5) ^ 2 + ((0 - 0) * 0.5) ^ 2
      = ((tx - mx) ^ 2 + (ty - my) ^ 2) * (1 / 2) ^ 2 := by ring
  have hq' : (mx - ((tx - mx) * 0.5 + mx)) ^ 2 + (my - ((ty - my) * 0.5 + my)) ^ 2 ≠ 0 := by
    rw [eq2]
    positivity
  have hrad' : ((Real.sqrt (((tx - mx) * 0.5) ^ 2 + ((ty - my) * 0.5) ^ 2 +
        ((0 - 0) * 0.5) ^ 2) ^ 2 - (max |mr - tr| 0.0001) ^ 2 +
        ((mx - ((tx - mx) * 0.5 + mx)) ^ 2 + (my - ((ty - my) * 0.5 + my)) ^ 2)) /
        (2 * Real.sqrt ((mx - ((tx - mx) * 0.5 + mx)) ^ 2 +
          (my - ((ty - my) * 0.5 + my)) ^ 2))) ^ 2
      ≤ Real.sqrt (((tx - mx) * 0.5) ^ 2 + ((ty - my) * 0.5) ^ 2 +
        ((0 - 0) * 0.5) ^ 2) ^ 2 := by
    rw [Real.sq_sqrt (by positivity :
      (0:ℝ) ≤ ((tx - mx) * 0.5) ^ 2 + ((ty - my) * 0.5) ^ 2 + ((0 - 0) * 0.5) ^ 2)]
    rw [eqE, eq2, Real.sqrt_mul hQ0.le, Real.sqrt_sq (by norm_num : (0:ℝ) ≤ 1 / 2)]
    exact radicand_bound _ _ _ hQ ht0 ht2
  obtain ⟨pn, hok, h1, h2⟩ := find_intersection_ok
    ((Circle.mk ⟨mx, my, 0⟩ mr).create_bisector_circle ⟨⟨tx, ty, 0⟩, tr⟩)
    ((Circle.mk ⟨mx, my, 0⟩ mr).create_difference_circle ⟨⟨tx, ty, 0⟩, tr⟩)
    hq' hrad'
  simp only [Circle.create_difference_circle] at h1 h2
  rw [abs_of_pos hrd0] at h1 h2
  exact ⟨pn, hok, h1, h2⟩

/-- Negative radicand for the bisector/difference intersection when the
squared center distance is below the squared difference-circle radius. -/
theorem radicand_neg (Q rd t : ℝ) (hrd : 0 < rd) (hQ0 : 0 < Q) (hQrd : Q < rd ^ 2)
    (ht0 : 0 < t) (ht2 : t ^ 2 = Q) :
    Q * (1 / 2) ^ 2 -
      ((Q * (1 / 2) ^ 2 - rd ^ 2 + Q * (1 / 2) ^ 2) / (2 * (t * (1 / 2)))) ^ 2 < 0 := by
  rw [sub_neg, div_pow (Q * (1 / 2) ^ 2 - rd ^ 2 + Q * (1 / 2) ^ 2) (2 * (t * (1 / 2))),
    lt_div_iff₀ (by positivity)]
  nlinarith [mul_pos (mul_pos hrd hrd) (sub_pos.mpr hQrd)]

/-- Error branch of the tangent-normal core: when the planar center distance
is positive but below the difference-circle radius `max |Δr| 0.0001`, the
`math.sqrt` radicand is negative and the intersection fails with the Python
`ValueError` (math domain error). -/
theorem tangent_core_err (mx my mr tx ty tr : ℝ)
    (hQ0 : 0 < (tx - mx) ^ 2 + (ty - my) ^ 2)
    (hQrd : (tx - mx) ^ 2 + (ty - my) ^ 2 < (max |mr - tr| 0.0001) ^ 2) :
    ((Circle.mk ⟨mx, my, 0⟩ mr).create_bisector_circle ⟨⟨tx, ty, 0⟩, tr⟩).find_intersection
      ((Circle.mk ⟨mx, my, 0⟩ mr).create_difference_circle ⟨⟨tx, ty, 0⟩, tr⟩) =
      .error .mathDomain := by
  have hrd0 : 0 < max |mr - tr| 0.0001 :=
    lt_of_lt_of_le (by norm_num) (le_max_right _ _)
  have ht0 : 0 < Real.sqrt ((tx - mx) ^ 2 + (ty - my) ^ 2) := Real.sqrt_pos.mpr hQ0
  have ht2 : Real.sqrt ((tx - mx) ^ 2 + (ty - my) ^ 2) ^ 2
      = (tx - mx) ^ 2 + (ty - my) ^ 2 := Real.sq_sqrt hQ0.le
  have eq2 : (mx - ((tx - mx) * 0.5 + mx)) ^ 2 + (my - ((ty - my) * 0.5 + my)) ^ 2
      = ((tx - mx) ^ 2 + (ty - my) ^ 2) * (1 / 2) ^ 2 := by ring
  have eqE : ((tx - mx) * 0.5) ^ 2 + ((ty - my) * 0.5) ^ 2 + ((0 - 0) * 0.5) ^ 2
      = ((tx - mx) ^ 2 + (ty - my) ^ 2) * (1 / 2) ^ 2 := by ring
  simp only [Circle.create_bisector_circle, Circle.create_difference_circle,
    Circle.find_intersection, Vec3.sub_mk, Vec3.smul_mk, Vec3.add_mk, Vec3.length_mk]
  rw [eq2, eqE]
  rw [Real.sq_sqrt (show (0:ℝ) ≤ ((tx - mx) ^ 2 + (ty - my) ^ 2) * (1 / 2) ^ 2 by positivity)]
  rw [show Real.sqrt (((tx - mx) ^ 2 + (ty - my) ^ 2) * (1 / 2) ^ 2)
      = Real.sqrt ((tx - mx) ^ 2 + (ty - my) ^ 2) * (1 / 2) from by
    rw [Real.sqrt_mul hQ0.le, Real.sqrt_sq (by norm_num : (0:ℝ) ≤ 1 / 2)]]
  rw [if_neg (show ¬ Real.sqrt ((tx - mx) ^ 2 + (ty - my) ^ 2) * (1 / 2) = 0 by positivity)]
  rw [if_pos (radicand_neg _ _ _ hrd0 hQ0 hQrd ht0 ht2)]

/-! ### C1 -/

/-- C1 amended: for planar circles whose center distance is at least
`max |Δr| 0.0001` (which follows from non-containment whenever the radii
differ by at least `1e-4`, and additionally requires the centers to be at
least `1e-4` apart otherwise), `find_positive_external_tangent_normal`
returns a vector of length exactly 1. -/
theorem c1_unit_tangent_normal (A B : Circle) (hzA : A.center.z = 0)
    (hzB : B.center.z = 0)
    (hdist : max |A.radius - B.radius| 0.0001 ≤
      Real.sqrt ((B.center.x - A.center.x) ^ 2 + (B.center.y - A.center.y) ^ 2)) :
    ∃ v, A.find_positive_external_tangent_normal B = .ok v ∧ v.length = 1 := by
  rcases A with ⟨⟨ax, ay, az⟩, ar⟩
  rcases B with ⟨⟨bx, by', bz⟩, br⟩
  simp only at hzA hzB hdist
  subst hzA
  subst hzB
  have hrd0 : 0 < max |ar - br| 0.0001 :=
    lt_of_lt_of_le (by norm_num) (le_max_right _ _)
  have hsq : (max |ar - br| 0.0001) ^ 2 ≤ (bx - ax) ^ 2 + (by' - ay) ^ 2 := by
    have h2 := pow_le_pow_left₀ hrd0.le hdist 2
    rwa [Real.sq_sqrt (by positivity)] at h2
  by_cases hab : ar > br
  · obtain ⟨pn, hok, h1, _⟩ := tangent_core ax ay ar bx by' br hsq
    refine ⟨(pn.1 - Vec3.mk ax ay 0).normal, ?_, ?_⟩
    · simp only [Circle.find_positive_external_tangent_normal, if_pos hab, hok, Except.map]
    · apply Vec3.normal_length
      rw [h1]
      exact hrd0.ne'
  · have hsq' : (max |br - ar| 0.0001) ^ 2 ≤ (ax - bx) ^ 2 + (ay - by') ^ 2 := by
      rw [abs_sub_comm, show (ax - bx) ^ 2 + (ay - by') ^ 2
        = (bx - ax) ^ 2 + (by' - ay) ^ 2 by ring]
      exact hsq
    have hrd0' : 0 < max |br - ar| 0.0001 :=
      lt_of_lt_of_le (by norm_num) (le_max_right _ _)
    obtain ⟨pn, hok, _, h2⟩ := tangent_core bx by' br ax ay ar hsq'
    refine ⟨(pn.2 - Vec3.mk bx by' 0).normal, ?_, ?_⟩
    · simp only [Circle.find_positive_external_tangent_normal, if_neg hab, hok, Except.map]
    · apply Vec3.normal_length
      rw [h2]
      exact hrd0'.ne'

/-- C1 witness: the two unit circles `cS0`, `cS1` at center distance
`1/6000` satisfy the hypotheses, and the computation yields a unit vector. -/
theorem c1_unit_tangent_normal_witness :
    (cS0.center.z = 0 ∧ cS1.center.z = 0 ∧
      max |cS0.radius - cS1.radius| 0.0001 ≤
        Real.sqrt ((cS1.center.x - cS0.center.x) ^ 2 + (cS1.center.y - cS0.center.y) ^ 2)) ∧
    (∃ v, cS0.find_positive_external_tangent_normal cS1 = .ok v ∧ v.length = 1) := by
  have hd : max |cS0.radius - cS1.radius| 0.0001 ≤
      Real.sqrt ((cS1.center.x - cS0.center.x) ^ 2 + (cS1.center.y - cS0.center.y) ^ 2) := by
    simp only [cS0, cS1]
    rw [sqrt_eval (by norm_num : (0:ℝ) ≤ 1 / 6000) (by norm_num)]
    exact max_le (by norm_num) (by norm_num)
  exact ⟨⟨rfl, rfl, hd⟩, c1_unit_tangent_normal cS0 cS1 rfl rfl hd⟩

/-- C1 counterexample: the circles `cT0`, `cT1` have distinct non-concentric
centers and are external to each other (distance `6e-5` exceeds the radius
sum `4e-5`), yet the computation raises the Python math domain error instead
of returning a unit vector, because the equal radii degenerate the difference
circle to radius `1e-4`, larger than the center distance. -/
theorem c1_counterexample :
    cT0.center ≠ cT1.center ∧
    cT0.radius + cT1.radius <
      Real.sqrt ((cT1.center.x - cT0.center.x) ^ 2 + (cT1.center.y - cT0.center.y) ^ 2) ∧
    cT0.find_positive_external_tangent_normal cT1 = .error .mathDomain := by
  refine ⟨?_, ?_, ?_⟩
  · norm_num [cT0, cT1, Vec3.mk.injEq]
  · simp only [cT0, cT1]
    rw [sqrt_eval (by norm_num : (0:ℝ) ≤ 3 / 50000) (by norm_num)]
    norm_num
  · have hcond : ¬ ((1:ℝ) / 50000 > (1:ℝ) / 50000) := by norm_num
    simp only [cT0, cT1, Circle.find_positive_external_tangent_normal, if_neg hcond]
    rw [tangent_core_err (3 / 50000) 0 (1 / 50000) 0 0 (1 / 50000) (by norm_num)
      (by
        rw [show |(1:ℝ) / 50000 - 1 / 50000| = 0 by norm_num,
          max_eq_right (by norm_num : (0:ℝ) ≤ 0.0001)]
        norm_num)]
    rfl

theorem Vec3.smul_add_sub (v a b : Vec3) (r : ℝ) :
    (v * r + b) - (v * r + a) = b - a := by
  rcases v with ⟨vx, vy, vz⟩
  rcases a with ⟨a1, a2, a3⟩
  rcases b with ⟨b1, b2, b3⟩
  simp only [Vec3.smul_mk, Vec3.add_mk, Vec3.sub_mk, Vec3.mk.injEq]
  exact ⟨by ring, by ring, by ring⟩

/-- Equal-radius tangent: for two planar circles of the same radius whose
centers are at least `1e-4` apart, the tangent line exists and its direction
is the normalized center difference; its length is the center distance. -/
theorem mkTangentLine_equal_radius (ax ay bx by' r : ℝ)
    (hD : (0.0001 : ℝ) ^ 2 ≤ (bx - ax) ^ 2 + (by' - ay) ^ 2) :
    ∃ t, mkTangentLine ⟨⟨ax, ay, 0⟩, r⟩ ⟨⟨bx, by', 0⟩, r⟩ = .ok t ∧
      t.direction = (Vec3.mk (bx - ax) (by' - ay) 0).normal ∧
      t.length = Real.sqrt ((bx - ax) ^ 2 + (by' - ay) ^ 2) ∧
      t.endPt - t.start = Vec3.mk (bx - ax) (by' - ay) 0 := by
  have hcond : ¬ (r > r) := lt_irrefl r
  have hsq : (max |r - r| 0.0001) ^ 2 ≤ (ax - bx) ^ 2 + (ay - by') ^ 2 := by
    rw [sub_self, abs_zero, max_eq_right (by norm_num : (0:ℝ) ≤ 0.0001),
      show (ax - bx) ^ 2 + (ay - by') ^ 2 = (bx - ax) ^ 2 + (by' - ay) ^ 2 by ring]
    exact hD
  obtain ⟨pn, hok, _, h2⟩ := tangent_core bx by' r ax ay r hsq
  have hn : Circle.find_positive_external_tangent_normal ⟨⟨ax, ay, 0⟩, r⟩ ⟨⟨bx, by', 0⟩, r⟩
      = .ok ((pn.2 - Vec3.mk bx by' 0).normal) := by
    simp only [Circle.find_positive_external_tangent_normal, if_neg hcond, hok, Except.map]
  have hbase : ((pn.2 - Vec3.mk bx by' 0).normal * r + Vec3.mk bx by' 0)
      - ((pn.2 - Vec3.mk bx by' 0).normal * r + Vec3.mk ax ay 0)
      = Vec3.mk (bx - ax) (by' - ay) 0 := by
    rw [Vec3.smul_add_sub]
    simp only [Vec3.sub_mk, sub_self]
  refine ⟨_, mkTangentLine_eval _ _ _ hn, ?_, ?_, ?_⟩
  · simp only [hbase]
  · simp only [hbase, Vec3.length_mk]
    rw [show (bx - ax) ^ 2 + (by' - ay) ^ 2 + (0:ℝ) ^ 2
      = (bx - ax) ^ 2 + (by' - ay) ^ 2 by ring]
  · simp only [hbase]

/-- Equal-radius tangent, same row, target to the right: direction `(1,0,0)`,
length the positive x gap. -/
theorem mkTangentLine_row_right (ax bx y r : ℝ) (h : ax + 0.0001 ≤ bx) :
    ∃ t, mkTangentLine ⟨⟨ax, y, 0⟩, r⟩ ⟨⟨bx, y, 0⟩, r⟩ = .ok t ∧
      t.direction = Vec3.mk 1 0 0 ∧ t.length = bx - ax ∧
      t.endPt - t.start = Vec3.mk (bx - ax) 0 0 := by
  have hgap : (0.0001 : ℝ) ≤ bx - ax := by linarith
  have hpos : (0 : ℝ) < bx - ax := by linarith
  obtain ⟨t, hok, hdir, hlen, hbase⟩ := mkTangentLine_equal_radius ax y bx y r
    (by
      rw [sub_self]
      nlinarith)
  rw [sub_self] at hdir hlen hbase
  refine ⟨t, hok, ?_, ?_, hbase⟩
  · rw [hdir, Vec3.normal, Vec3.length_mk,
      show (bx - ax) ^ 2 + (0:ℝ) ^ 2 + (0:ℝ) ^ 2 = (bx - ax) ^ 2 by ring,
      Real.sqrt_sq hpos.le, if_neg hpos.ne', Vec3.smul_mk, Vec3.mk.injEq]
    exact ⟨by rw [mul_one_div, div_self hpos.ne'], by ring, by ring⟩
  · rw [hlen, show (bx - ax) ^ 2 + (0:ℝ) ^ 2 = (bx - ax) ^ 2 by ring,
      Real.sqrt_sq hpos.le]

/-- Equal-radius tangent, same row, target to the left: direction `(-1,0,0)`,
length the positive x gap. -/
theorem mkTangentLine_row_left (ax bx y r : ℝ) (h : bx + 0.0001 ≤ ax) :
    ∃ t, mkTangentLine ⟨⟨ax, y, 0⟩, r⟩ ⟨⟨bx, y, 0⟩, r⟩ = .ok t ∧
      t.direction = Vec3.mk (-1) 0 0 ∧ t.length = ax - bx ∧
      t.endPt - t.start = Vec3.mk (bx - ax) 0 0 := by
  have hpos : (0 : ℝ) < ax - bx := by linarith
  obtain ⟨t, hok, hdir, hlen, hbase⟩ := mkTangentLine_equal_radius ax y bx y r
    (by
      rw [sub_self]
      nlinarith)
  rw [sub_self] at hdir hlen hbase
  refine ⟨t, hok, ?_, ?_, hbase⟩
  · rw [hdir, Vec3.normal, Vec3.length_mk,
      show (bx - ax) ^ 2 + (0:ℝ) ^ 2 + (0:ℝ) ^ 2 = (ax - bx) ^ 2 by ring,
      Real.sqrt_sq hpos.le, if_neg hpos.ne', Vec3.smul_mk, Vec3.mk.injEq]
    exact ⟨by rw [mul_one_div, div_eq_iff hpos.ne']; ring, by ring, by ring⟩
  · rw [hlen, show (bx - ax) ^ 2 + (0:ℝ) ^ 2 = (ax - bx) ^ 2 by ring,
      Real.sqrt_sq hpos.le]

theorem Vec3.length_sub_comm (a b : Vec3) : (a - b).length = (b - a).length := by
  rcases a with ⟨a1, a2, a3⟩
  rcases b with ⟨b1, b2, b3⟩
  simp only [Vec3.sub_mk, Vec3.length_mk]
  rw [show (a1 - b1) ^ 2 + (a2 - b2) ^ 2 + (a3 - b3) ^ 2
    = (b1 - a1) ^ 2 + (b2 - a2) ^ 2 + (b3 - a3) ^ 2 by ring]

/-! ### Loop evaluation rules -/

theorem findExtLoop_nil (self : ℕ × Circle) (guide : Vec3)
    (best : Option (ℝ × TangentLine × (ℕ × Circle))) :
    findExtLoop self guide [] best = .ok best := by
  simp only [findExtLoop]

theorem findExtLoop_skip (self node : ℕ × Circle) (guide : Vec3) (rest : List (ℕ × Circle))
    (best : Option (ℝ × TangentLine × (ℕ × Circle))) (h : node.1 = self.1) :
    findExtLoop self guide (node :: rest) best = findExtLoop self guide rest best := by
  simp only [findExtLoop, if_pos h]

theorem findExtLoop_first (self node : ℕ × Circle) (guide : Vec3) (rest : List (ℕ × Circle))
    (t : TangentLine) (h : ¬ node.1 = self.1) (ht : mkTangentLine self.2 node.2 = .ok t) :
    findExtLoop self guide (node :: rest) none =
      findExtLoop self guide rest (some (guide.angle t.direction, t, node)) := by
  simp only [findExtLoop, if_neg h, ht]

theorem findExtLoop_take (self node : ℕ × Circle) (guide : Vec3) (rest : List (ℕ × Circle))
    (t : TangentLine) (b : ℝ × TangentLine × (ℕ × Circle))
    (h : ¬ node.1 = self.1) (ht : mkTangentLine self.2 node.2 = .ok t)
    (hlt : guide.angle t.direction < b.1) :
    findExtLoop self guide (node :: rest) (some b) =
      findExtLoop self guide rest (some (guide.angle t.direction, t, node)) := by
  simp only [findExtLoop, if_neg h, ht, if_pos hlt]

theorem findExtLoop_keep (self node : ℕ × Circle) (guide : Vec3) (rest : List (ℕ × Circle))
    (t : TangentLine) (b : ℝ × TangentLine × (ℕ × Circle))
    (h : ¬ node.1 = self.1) (ht : mkTangentLine self.2 node.2 = .ok t)
    (hge : ¬ guide.angle t.direction < b.1) :
    findExtLoop self guide (node :: rest) (some b) =
      findExtLoop self guide rest (some b) := by
  simp only [findExtLoop, if_neg h, ht, if_neg hge]

theorem wrapPath_three (p1 p2 p3 : Part) :
    wrapPath [p1, p2, p3] = [{ p1 with arcStart := p3.arcStart }, p2] := by
  simp [wrapPath, List.getLast?_cons_cons, List.getLast?_singleton, List.dropLast,
    List.modifyHead]

theorem beltLoop_exit (cs : List Circle) (nodes : List (ℕ × Circle)) (fuel : ℕ)
    (starting : Option ℕ) (current : ℕ × Circle) (guide : Vec3) (path : List Part)
    (h : starting = some current.1) :
    beltLoop cs nodes fuel starting current guide path = some (.ok (wrapPath path, cs)) := by
  cases fuel <;> simp only [beltLoop, if_pos h]

theorem beltLoop_step (cs : List Circle) (nodes : List (ℕ × Circle)) (fuel : ℕ)
    (starting : Option ℕ) (current next : ℕ × Circle) (guide : Vec3) (path : List Part)
    (t : TangentLine) (hne : ¬ starting = some current.1)
    (hfind : findExtTangent current guide nodes = .ok (some (t, next))) :
    beltLoop cs nodes (fuel + 1) starting current guide path =
      beltLoop cs nodes fuel (some (starting.getD current.1)) next t.direction
        (updateLast (fun p =>
            { p with arcEnd := t.normal * p.circle.radius + p.circle.center,
                     tangent := some t }) path
          ++ [mkPart next t]) := by
  simp only [beltLoop, if_neg hne, hfind]

theorem beltLoop_no_tangent (cs : List Circle) (nodes : List (ℕ × Circle)) (fuel : ℕ)
    (starting : Option ℕ) (current : ℕ × Circle) (guide : Vec3) (path : List Part)
    (hne : ¬ starting = some current.1)
    (hfind : findExtTangent current guide nodes = .ok none) :
    beltLoop cs nodes (fuel + 1) starting current guide path =
      some (.error .attributeError) := by
  simp only [beltLoop, if_neg hne, hfind]

/-! ### Angle evaluations -/

theorem angle_up_right : Vec3.angle ⟨0, 1, 0⟩ ⟨1, 0, 0⟩ = Real.pi / 2 := by
  simp only [Vec3.angle, Vec3.dot_mk, Vec3.length_mk]
  rw [show (0:ℝ) ^ 2 + 1 ^ 2 + 0 ^ 2 = 1 by norm_num,
    show (1:ℝ) ^ 2 + 0 ^ 2 + 0 ^ 2 = 1 by norm_num, Real.sqrt_one]
  norm_num

theorem angle_right_left : Vec3.angle ⟨1, 0, 0⟩ ⟨-1, 0, 0⟩ = Real.pi := by
  simp only [Vec3.angle, Vec3.dot_mk, Vec3.length_mk]
  rw [show (1:ℝ) ^ 2 + 0 ^ 2 + 0 ^ 2 = 1 by norm_num,
    show (-1:ℝ) ^ 2 + 0 ^ 2 + 0 ^ 2 = 1 by norm_num, Real.sqrt_one]
  norm_num [Real.arccos_neg_one]

theorem angle_right_right : Vec3.angle ⟨1, 0, 0⟩ ⟨1, 0, 0⟩ = 0 := by
  simp only [Vec3.angle, Vec3.dot_mk, Vec3.length_mk]
  rw [show (1:ℝ) ^ 2 + 0 ^ 2 + 0 ^ 2 = 1 by norm_num, Real.sqrt_one]
  norm_num

theorem angle_up_left : Vec3.angle ⟨0, 1, 0⟩ ⟨-1, 0, 0⟩ = Real.pi / 2 := by
  simp only [Vec3.angle, Vec3.dot_mk, Vec3.length_mk]
  rw [show (0:ℝ) ^ 2 + 1 ^ 2 + 0 ^ 2 = 1 by norm_num,
    show (-1:ℝ) ^ 2 + 0 ^ 2 + 0 ^ 2 = 1 by norm_num, Real.sqrt_one]
  norm_num

/-! ### The two-circle system `smallPair`, evaluated -/

theorem withIdx_smallPair : withIdx smallPair 0 = [(0, cS0), (1, cS1)] := by
  simp [smallPair, withIdx]

theorem argminX_smallPair : argminX (withIdx smallPair 0) = some (0, cS0) := by
  rw [withIdx_smallPair]
  simp only [argminX, List.foldl]
  rw [if_neg (by norm_num [cS0, cS1] : ¬ ((1, cS1).2.center.x < (0, cS0).2.center.x))]

theorem smallPair_steps : ∃ t01 t10 : TangentLine,
    mkTangentLine cS0 cS1 = .ok t01 ∧ t01.direction = ⟨1, 0, 0⟩ ∧
      t01.length = 1 / 6000 ∧ t01.endPt - t01.start = ⟨1 / 6000, 0, 0⟩ ∧
    mkTangentLine cS1 cS0 = .ok t10 ∧ t10.direction = ⟨-1, 0, 0⟩ ∧
      t10.length = 1 / 6000 ∧ t10.endPt - t10.start = ⟨-(1 / 6000), 0, 0⟩ ∧
    findExtTangent (0, cS0) ⟨0, 1, 0⟩ (withIdx smallPair 0) = .ok (some (t01, (1, cS1))) ∧
    findExtTangent (1, cS1) ⟨1, 0, 0⟩ (withIdx smallPair 0) = .ok (some (t10, (0, cS0))) := by
  obtain ⟨t01, hok01, hdir01, hlen01, hbase01⟩ :=
    mkTangentLine_row_right 0 (1 / 6000) 0 1 (by norm_num)
  obtain ⟨t10, hok10, hdir10, hlen10, hbase10⟩ :=
    mkTangentLine_row_left (1 / 6000) 0 0 1 (by norm_num)
  have hok01' : mkTangentLine cS0 cS1 = .ok t01 := hok01
  have hok10' : mkTangentLine cS1 cS0 = .ok t10 := hok10
  have hlen01' : t01.length = 1 / 6000 := by
    rw [hlen01]
    norm_num
  have hlen10' : t10.length = 1 / 6000 := by
    rw [hlen10]
    norm_num
  have hbase01' : t01.endPt - t01.start = Vec3.mk (1 / 6000) 0 0 := by
    rw [hbase01]
    norm_num [Vec3.mk.injEq]
  have hbase10' : t10.endPt - t10.start = Vec3.mk (-(1 / 6000)) 0 0 := by
    rw [hbase10]
    norm_num [Vec3.mk.injEq]
  refine ⟨t01, t10, hok01', hdir01, hlen01', hbase01', hok10', hdir10, hlen10', hbase10',
    ?_, ?_⟩
  · simp only [findExtTangent, withIdx_smallPair]
    rw [findExtLoop_skip (0, cS0) (0, cS0) ⟨0, 1, 0⟩ [(1, cS1)] none rfl,
      findExtLoop_first (0, cS0) (1, cS1) ⟨0, 1, 0⟩ [] t01 (by decide) hok01',
      hdir01, angle_up_right, findExtLoop_nil]
    rfl
  · simp only [findExtTangent, withIdx_smallPair]
    rw [findExtLoop_first (1, cS1) (0, cS0) ⟨1, 0, 0⟩ [(1, cS1)] t10 (by decide) hok10',
      findExtLoop_skip (1, cS1) (1, cS1) ⟨1, 0, 0⟩ [] _ rfl, findExtLoop_nil]
    rfl

theorem smallPair_run : ∃ t01 t10 : TangentLine,
    t01.length = 1 / 6000 ∧ t10.length = 1 / 6000 ∧
    tracePathEmits t01.start t01.endPt = false ∧
    tracePathEmits t10.start t10.endPt = false ∧
    buildBeltPath smallPair 3 = some (.ok
      ([{ idx := 0, circle := cS0,
          arcStart := t10.normal * cS0.radius + cS0.center,
          arcEnd := t01.normal * cS0.radius + cS0.center, tangent := some t01 },
        { idx := 1, circle := cS1,
          arcStart := t01.normal * cS1.radius + cS1.center,
          arcEnd := t10.normal * cS1.radius + cS1.center, tangent := some t10 }],
       smallPair)) := by
  obtain ⟨t01, t10, hok01, hdir01, hlen01, hbase01, hok10, hdir10, hlen10, hbase10,
    hfind1, hfind2⟩ := smallPair_steps
  have hskip01 : tracePathEmits t01.start t01.endPt = false := by
    apply decide_eq_false
    rw [Vec3.length_sub_comm, hbase01, Vec3.length_mk,
      sqrt_eval (by norm_num : (0:ℝ) ≤ 1 / 6000) (by norm_num), MINIMAL_SIZE]
    norm_num
  have hskip10 : tracePathEmits t10.start t10.endPt = false := by
    apply decide_eq_false
    rw [Vec3.length_sub_comm, hbase10, Vec3.length_mk,
      sqrt_eval (by norm_num : (0:ℝ) ≤ 1 / 6000) (by norm_num), MINIMAL_SIZE]
    norm_num
  refine ⟨t01, t10, hlen01, hlen10, hskip01, hskip10, ?_⟩
  simp only [buildBeltPath, argminX_smallPair]
  rw [show (3:ℕ) = 2 + 1 from rfl,
    beltLoop_step smallPair (withIdx smallPair 0) 2 none (0, cS0) (1, cS1) ⟨0, 1, 0⟩ _
      t01 (by simp) hfind1]
  simp only [updateLast, mkPart, List.cons_append, List.nil_append, Option.getD_none,
    Option.getD_some, hdir01]
  rw [show (2:ℕ) = 1 + 1 from rfl,
    beltLoop_step smallPair (withIdx smallPair 0) 1 (some 0) (1, cS1) (0, cS0) ⟨1, 0, 0⟩ _
      t10 (by simp) hfind2]
  simp only [updateLast, mkPart, List.cons_append, List.nil_append, Option.getD_none,
    Option.getD_some, hdir10]
  rw [beltLoop_exit smallPair (withIdx smallPair 0) 1 (some 0) (0, cS0) ⟨-1, 0, 0⟩ _ rfl,
    wrapPath_three]

/-! ### Membership property of the candidate scan -/

theorem findExtLoop_mem (self : ℕ × Circle) (guide : Vec3) :
    ∀ (l : List (ℕ × Circle)) (best : Option (ℝ × TangentLine × (ℕ × Circle)))
      (a : ℝ) (t : TangentLine) (n : ℕ × Circle),
      findExtLoop self guide l best = .ok (some (a, t, n)) →
      (n ∈ l ∧ ¬ n.1 = self.1) ∨ best = some (a, t, n) := by
  intro l
  induction l with
  | nil =>
    intro best a t n h
    rw [findExtLoop_nil] at h
    right
    exact Except.ok.inj h
  | cons node rest ih =>
    intro best a t n h
    by_cases hsk : node.1 = self.1
    · rw [findExtLoop_skip _ _ _ _ _ hsk] at h
      rcases ih best a t n h with h1 | h2
      · exact Or.inl ⟨List.mem_cons_of_mem _ h1.1, h1.2⟩
      · exact Or.inr h2
    · cases ht : mkTangentLine self.2 node.2 with
      | error e =>
        simp only [findExtLoop, if_neg hsk, ht] at h
        exact Except.noConfusion h
      | ok t' =>
        cases best with
        | none =>
          rw [findExtLoop_first _ _ _ _ t' hsk ht] at h
          rcases ih _ a t n h with h1 | h2
          · exact Or.inl ⟨List.mem_cons_of_mem _ h1.1, h1.2⟩
          · simp only [Option.some.injEq, Prod.mk.injEq] at h2
            refine Or.inl ⟨?_, ?_⟩
            · rw [← h2.2.2]
              exact List.mem_cons_self _ _
            · rw [← h2.2.2]
              exact hsk
        | some b =>
          by_cases hlt : guide.angle t'.direction < b.1
          · rw [findExtLoop_take _ _ _ _ t' b hsk ht hlt] at h
            rcases ih _ a t n h with h1 | h2
            · exact Or.inl ⟨List.mem_cons_of_mem _ h1.1, h1.2⟩
            · simp only [Option.some.injEq, Prod.mk.injEq] at h2
              refine Or.inl ⟨?_, ?_⟩
              · rw [← h2.2.2]
                exact List.mem_cons_self _ _
              · rw [← h2.2.2]
                exact hsk
          · rw [findExtLoop_keep _ _ _ _ t' b hsk ht hlt] at h
            rcases ih _ a t n h with h1 | h2
            · exact Or.inl ⟨List.mem_cons_of_mem _ h1.1, h1.2⟩
            · exact Or.inr h2

theorem findExtTangent_mem (self : ℕ × Circle) (guide : Vec3)
    (nodes : List (ℕ × Circle)) (t : TangentLine) (n : ℕ × Circle)
    (h : findExtTangent self guide nodes = .ok (some (t, n))) :
    n ∈ nodes ∧ ¬ n.1 = self.1 := by
  simp only [findExtTangent] at h
  cases hl : findExtLoop self guide nodes none with
  | error e =>
    rw [hl] at h
    simp only [Except.map] at h
    exact Except.noConfusion h
  | ok o =>
    rw [hl] at h
    cases o with
    | none =>
      simp only [Except.map, Option.map] at h
      exact Option.noConfusion (Except.ok.inj h)
    | some b =>
      obtain ⟨a, t', n'⟩ := b
      simp only [Except.map, Option.map, Except.ok.injEq, Option.some.injEq,
        Prod.mk.injEq] at h
      rcases findExtLoop_mem self guide nodes none a t' n' hl with h1 | h2
      · rw [← h.2]
        exact h1
      · exact Option.noConfusion h2

/-! ### Preservation of the circle list -/

theorem beltLoop_preserves (circles : List Circle) (nodes : List (ℕ × Circle)) :
    ∀ (fuel : ℕ) (starting : Option ℕ) (current : ℕ × Circle) (guide : Vec3)
      (path res : List Part) (cs' : List Circle),
      beltLoop circles nodes fuel starting current guide path = some (.ok (res, cs')) →
      cs' = circles := by
  intro fuel
  induction fuel with
  | zero =>
    intro starting current guide path res cs' h
    by_cases hs : starting = some current.1
    · rw [beltLoop_exit _ _ _ _ _ _ _ hs] at h
      simp only [Option.some.injEq, Except.ok.injEq, Prod.mk.injEq] at h
      exact h.2.symm
    · simp only [beltLoop, if_neg hs] at h
      exact Option.noConfusion h
  | succ n ih =>
    intro starting current guide path res cs' h
    by_cases hs : starting = some current.1
    · rw [beltLoop_exit _ _ _ _ _ _ _ hs] at h
      simp only [Option.some.injEq, Except.ok.injEq, Prod.mk.injEq] at h
      exact h.2.symm
    · simp only [beltLoop, if_neg hs] at h
      cases hf : findExtTangent current guide nodes with
      | error e =>
        rw [hf] at h
        simp only [Option.some.injEq] at h
        exact Except.noConfusion h
      | ok o =>
        rw [hf] at h
        cases o with
        | none =>
          simp only [Option.some.injEq] at h
          exact Except.noConfusion h
        | some pr =>
          obtain ⟨t, next⟩ := pr
          exact ih _ _ _ _ _ _ h

/-! ### C5 -/

/-- C5 amended: with fewer than 2 circles the path builder fails, but with
unguarded Python exceptions rather than a descriptive `InsufficientCircles`
error: an empty collection crashes `min()` with `ValueError`, and a single
circle makes the tangent scan return `None`, so `tangent.direction` raises
`AttributeError`. -/
theorem c5_insufficient_errors :
    (∀ fuel : ℕ, buildBeltPath [] fuel = some (.error .valueError)) ∧
    (∀ (c : Circle) (fuel : ℕ),
      buildBeltPath [c] (fuel + 1) = some (.error .attributeError)) := by
  constructor
  · intro fuel
    simp only [buildBeltPath, withIdx, argminX]
  · intro c fuel
    have hfind : findExtTangent (0, c) ⟨0, 1, 0⟩ [(0, c)] = .ok none := by
      simp only [findExtTangent]
      rw [findExtLoop_skip (0, c) (0, c) ⟨0, 1, 0⟩ [] none rfl, findExtLoop_nil]
      rfl
    simp only [buildBeltPath, withIdx, argminX, List.foldl]
    rw [beltLoop_no_tangent [c] [(0, c)] fuel none (0, c) ⟨0, 1, 0⟩ _ (by simp) hfind]

/-- C5 counterexample: for the empty input the computation fails with the
`ValueError` of `min()` on an empty sequence, which is not the guarded
`InsufficientCircles` error the claim demands (no such error kind exists in
the code). -/
theorem c5_counterexample :
    buildBeltPath [] 3 = some (.error .valueError) ∧
    Err.valueError ≠ Err.insufficientCircles := by
  constructor
  · simp only [buildBeltPath, withIdx, argminX]
  · decide

/-! ### C7 -/

/-- C7 amended: a shape is emitted by `trace_path` exactly when its start and
end are at least `MINIMAL_SIZE` apart; this gate applies to tangents exactly
as to arcs, so a degenerate tangent is skipped too — in the two-circle system
`smallPair` (centers `1/6000` apart) both tangents have length `1/6000 <
0.001` and neither is emitted. -/
theorem c7_emission :
    (∀ s e : Vec3, tracePathEmits s e = true ↔ MINIMAL_SIZE ≤ (s - e).length) ∧
    (∃ (path : List Part) (circs : List Circle),
      buildBeltPath smallPair 3 = some (.ok (path, circs)) ∧
      path.map (fun p => p.tangent.map fun t => tracePathEmits t.start t.endPt) =
        [some false, some false]) := by
  constructor
  · intro s e
    simp only [tracePathEmits, decide_eq_true_eq]
  · obtain ⟨t01, t10, _, _, hskip01, hskip10, hrun⟩ := smallPair_run
    refine ⟨_, _, hrun, ?_⟩
    simp only [List.map_cons, List.map_nil, Option.map_some', hskip01, hskip10]

/-- C7 counterexample: in the two-circle system `smallPair` the first path
part's tangent exists but is not emitted (its length `1/6000` is below
`MINIMAL_SIZE`), refuting the claim that the tangent is always emitted. -/
theorem c7_counterexample :
    ∃ (path : List Part) (circs : List Circle) (t : TangentLine),
      buildBeltPath smallPair 3 = some (.ok (path, circs)) ∧
      path.head?.bind Part.tangent = some t ∧
      tracePathEmits t.start t.endPt = false := by
  obtain ⟨t01, t10, _, _, hskip01, _, hrun⟩ := smallPair_run
  exact ⟨_, _, t01, hrun, rfl, hskip01⟩

/-! ### C9 -/

/-- C9: the path builder returns the circle collection it was given unchanged
— the traversal only reads centers and radii, never writes them. -/
theorem c9_circles_readonly (circles : List Circle) (fuel : ℕ)
    (path : List Part) (cs : List Circle)
    (h : buildBeltPath circles fuel = some (.ok (path, cs))) : cs = circles := by
  rcases hm : argminX (withIdx circles 0) with _ | start
  · rw [buildBeltPath, hm] at h
    simp only [Option.some.injEq] at h
    exact Except.noConfusion h
  · rw [buildBeltPath, hm] at h
    exact beltLoop_preserves circles (withIdx circles 0) fuel none start ⟨0, 1, 0⟩ _ _ _ h

/-- C9 witness: a successful two-circle build returns the circle list
unchanged. -/
theorem c9_circles_readonly_witness :
    ∃ pr : List Part × List Circle,
      buildBeltPath smallPair 3 = some (.ok pr) ∧ pr.2 = smallPair := by
  obtain ⟨t01, t10, _, _, _, _, hrun⟩ := smallPair_run
  exact ⟨_, hrun, c9_circles_readonly smallPair 3 _ _ hrun⟩

/-! ### The three-wheel scenario, evaluated -/

theorem normal_of_length (v : Vec3) (L : ℝ) (hL : v.length = L) (h0 : ¬ L = 0) :
    v.normal = v * (1 / L) := by
  rw [Vec3.normal, hL, if_neg h0]

theorem sq2475 : Real.sqrt 2475 ^ 2 = 2475 := Real.sq_sqrt (by norm_num)

theorem sq2475' : Real.sqrt 2475 * Real.sqrt 2475 = 2475 :=
  Real.mul_self_sqrt (by norm_num)

theorem sqrt2475_pos : 0 < Real.sqrt 2475 := Real.sqrt_pos.mpr (by norm_num)

theorem sq24 : Real.sqrt 24.75 ^ 2 = 24.75 := Real.sq_sqrt (by norm_num)

theorem sq24' : Real.sqrt 24.75 * Real.sqrt 24.75 = 24.75 :=
  Real.mul_self_sqrt (by norm_num)

theorem sqrt24_nonneg : 0 ≤ Real.sqrt 24.75 := Real.sqrt_nonneg _

theorem wheels_len_gen (a b : ℝ) (ha : a ^ 2 = 2450.25) (hb : b ^ 2 = 24.75) :
    (Vec3.mk (a / Real.sqrt 2475) (b / Real.sqrt 2475) 0).length = 1 := by
  rw [Vec3.length_mk,
    show (a / Real.sqrt 2475) ^ 2 + (b / Real.sqrt 2475) ^ 2 + (0:ℝ) ^ 2
      = (a ^ 2 + b ^ 2) / Real.sqrt 2475 ^ 2 by ring,
    ha, hb, sq2475, show (2450.25 + 24.75) / (2475:ℝ) = 1 by norm_num, Real.sqrt_one]

theorem wheels_angle_gen (a1 b1 a2 b2 : ℝ)
    (h1 : (Vec3.mk (a1 / Real.sqrt 2475) (b1 / Real.sqrt 2475) 0).length = 1)
    (h2 : (Vec3.mk (a2 / Real.sqrt 2475) (b2 / Real.sqrt 2475) 0).length = 1) :
    Vec3.angle (Vec3.mk (a1 / Real.sqrt 2475) (b1 / Real.sqrt 2475) 0)
        (Vec3.mk (a2 / Real.sqrt 2475) (b2 / Real.sqrt 2475) 0)
      = Real.arccos ((a1 * a2 + b1 * b2) / 2475) := by
  rw [Vec3.angle, h1, h2, Vec3.dot_mk]
  congr 1
  rw [show (a1 / Real.sqrt 2475 * (a2 / Real.sqrt 2475) +
      b1 / Real.sqrt 2475 * (b2 / Real.sqrt 2475) + 0 * 0) / (1 * 1)
    = (a1 * a2 + b1 * b2) / Real.sqrt 2475 ^ 2 by ring, sq2475]

theorem wheels_angle_up (a b : ℝ)
    (h : (Vec3.mk (a / Real.sqrt 2475) (b / Real.sqrt 2475) 0).length = 1) :
    Vec3.angle ⟨0, 1, 0⟩ (Vec3.mk (a / Real.sqrt 2475) (b / Real.sqrt 2475) 0)
      = Real.arccos (b / Real.sqrt 2475) := by
  rw [Vec3.angle, h, Vec3.length_mk,
    show (0:ℝ) ^ 2 + 1 ^ 2 + 0 ^ 2 = 1 by norm_num, Real.sqrt_one, Vec3.dot_mk]
  congr 1
  ring

theorem wheels_angle_axis (a b c : ℝ)
    (h : (Vec3.mk (a / Real.sqrt 2475) (b / Real.sqrt 2475) 0).length = 1)
    (hc : (Vec3.mk c 0 0).length = 1) :
    Vec3.angle (Vec3.mk (a / Real.sqrt 2475) (b / Real.sqrt 2475) 0) (Vec3.mk c 0 0)
      = Real.arccos (a * c / Real.sqrt 2475) := by
  rw [Vec3.angle, h, hc, Vec3.dot_mk]
  congr 1
  ring

theorem len_unit_x : (Vec3.mk (1:ℝ) 0 0).length = 1 := by
  rw [Vec3.length_mk]
  rw [show (1:ℝ) ^ 2 + 0 ^ 2 + 0 ^ 2 = 1 by norm_num, Real.sqrt_one]

theorem len_neg_unit_x : (Vec3.mk (-1:ℝ) 0 0).length = 1 := by
  rw [Vec3.length_mk]
  rw [show (-1:ℝ) ^ 2 + 0 ^ 2 + 0 ^ 2 = 1 by norm_num, Real.sqrt_one]

theorem wheels_base_len (a b : ℝ) (ha : a ^ 2 = 2450.25) (hb : b ^ 2 = 24.75) :
    (Vec3.mk a b 0).length = Real.sqrt 2475 := by
  rw [Vec3.length_mk, show a ^ 2 + b ^ 2 + (0:ℝ) ^ 2 = 2475 by rw [ha, hb]; norm_num]

theorem wheels_bis1 : (Circle.mk ⟨50, 0, 0⟩ 15).create_bisector_circle ⟨⟨0, 0, 0⟩, 10⟩
    = ⟨⟨25, 0, 0⟩, 25⟩ := by
  simp only [Circle.create_bisector_circle, Vec3.sub_mk, Vec3.smul_mk, Vec3.add_mk,
    Vec3.length_mk, Circle.mk.injEq, Vec3.mk.injEq]
  exact ⟨⟨by norm_num, by norm_num, by norm_num⟩, sqrt_eval (by norm_num) (by norm_num)⟩

theorem wheels_diff1 : (Circle.mk ⟨50, 0, 0⟩ 15).create_difference_circle ⟨⟨0, 0, 0⟩, 10⟩
    = ⟨⟨50, 0, 0⟩, 5⟩ := by
  simp only [Circle.create_difference_circle, Circle.mk.injEq, Vec3.mk.injEq]
  refine ⟨trivial, ?_⟩
  rw [show |(15:ℝ) - 10| = 5 by norm_num, max_eq_left (by norm_num)]

theorem wheels_i1 : Circle.find_intersection ⟨⟨25, 0, 0⟩, 25⟩ ⟨⟨50, 0, 0⟩, 5⟩ =
    .ok (⟨49.5, -Real.sqrt 24.75, 0⟩, ⟨49.5, Real.sqrt 24.75, 0⟩) := by
  rw [find_intersection_eval 25 0 0 25 50 0 0 5 25 24.5 (Real.sqrt 24.75)
    (sqrt_eval (by norm_num) (by norm_num)) (by norm_num) (by norm_num) (by norm_num)
    (by rw [show (25:ℝ) ^ 2 - 24.5 ^ 2 = 24.75 by norm_num])]
  refine congrArg Except.ok ?_
  simp only [Prod.mk.injEq, Vec3.mk.injEq]
  exact ⟨⟨by ring, by ring, trivial⟩, by ring, by ring, trivial⟩

theorem wheels_bis2 : (Circle.mk ⟨50, 0, 0⟩ 15).create_bisector_circle ⟨⟨100, 0, 0⟩, 10⟩
    = ⟨⟨75, 0, 0⟩, 25⟩ := by
  simp only [Circle.create_bisector_circle, Vec3.sub_mk, Vec3.smul_mk, Vec3.add_mk,
    Vec3.length_mk, Circle.mk.injEq, Vec3.mk.injEq]
  exact ⟨⟨by norm_num, by norm_num, by norm_num⟩, sqrt_eval (by norm_num) (by norm_num)⟩

theorem wheels_diff2 : (Circle.mk ⟨50, 0, 0⟩ 15).create_difference_circle ⟨⟨100, 0, 0⟩, 10⟩
    = ⟨⟨50, 0, 0⟩, 5⟩ := by
  simp only [Circle.create_difference_circle, Circle.mk.injEq, Vec3.mk.injEq]
  refine ⟨trivial, ?_⟩
  rw [show |(15:ℝ) - 10| = 5 by norm_num, max_eq_left (by norm_num)]

theorem wheels_i2 : Circle.find_intersection ⟨⟨75, 0, 0⟩, 25⟩ ⟨⟨50, 0, 0⟩, 5⟩ =
    .ok (⟨50.5, Real.sqrt 24.75, 0⟩, ⟨50.5, -Real.sqrt 24.75, 0⟩) := by
  rw [find_intersection_eval 75 0 0 25 50 0 0 5 25 24.5 (Real.sqrt 24.75)
    (sqrt_eval (by norm_num) (by norm_num)) (by norm_num) (by norm_num) (by norm_num)
    (by rw [show (25:ℝ) ^ 2 - 24.5 ^ 2 = 24.75 by norm_num])]
  refine congrArg Except.ok ?_
  simp only [Prod.mk.injEq, Vec3.mk.injEq]
  exact ⟨⟨by ring, by ring, trivial⟩, by ring, by ring, trivial⟩

/-- First wheel tangent, `cW0 → cW1` (reversed orientation, `neg` point). -/
theorem wheels_t01 : ∃ t, mkTangentLine cW0 cW1 = .ok t ∧
    t.direction = Vec3.mk (49.5 / Real.sqrt 2475) (Real.sqrt 24.75 / Real.sqrt 2475) 0 ∧
    t.length = Real.sqrt 2475 := by
  have hlt : ¬ ((10:ℝ) > 15) := by norm_num
  have hn : Circle.find_positive_external_tangent_normal cW0 cW1 =
      .ok (Vec3.mk (-(1 / 10)) (Real.sqrt 24.75 / 5) 0) := by
    simp only [cW0, cW1, Circle.find_positive_external_tangent_normal, if_neg hlt,
      wheels_bis1, wheels_diff1, wheels_i1, Except.map, Vec3.sub_mk]
    refine congrArg Except.ok ?_
    rw [show (49.5:ℝ) - 50 = -(1 / 2) by norm_num, show Real.sqrt 24.75 - 0
      = Real.sqrt 24.75 by ring, show (0:ℝ) - 0 = 0 by ring,
      normal_of_length _ 5 (by
        rw [Vec3.length_mk, show (-(1/2):ℝ) ^ 2 + Real.sqrt 24.75 ^ 2 + 0 ^ 2
          = 25 by rw [sq24]; norm_num]
        exact sqrt_eval (by norm_num) (by norm_num)) (by norm_num), Vec3.smul_mk]
    simp only [Vec3.mk.injEq]
    exact ⟨by norm_num, by rw [mul_one_div], by norm_num⟩
  refine ⟨_, mkTangentLine_eval cW0 cW1 _ hn, ?_, ?_⟩
  · simp only [cW0, cW1, Vec3.smul_mk, Vec3.add_mk, Vec3.sub_mk]
    rw [show (-(1/10) * 15 + 50 - (-(1/10) * 10 + 0) : ℝ) = 49.5 by norm_num,
      show (Real.sqrt 24.75 / 5 * 15 + 0 - (Real.sqrt 24.75 / 5 * 10 + 0) : ℝ)
        = Real.sqrt 24.75 by ring,
      show ((0:ℝ) * 15 + 0 - (0 * 10 + 0)) = 0 by ring,
      normal_of_length _ (Real.sqrt 2475)
        (wheels_base_len _ _ (by norm_num) sq24) sqrt2475_pos.ne', Vec3.smul_mk]
    simp only [Vec3.mk.injEq]
    exact ⟨by rw [mul_one_div], by rw [mul_one_div], by norm_num⟩
  · simp only [cW0, cW1, Vec3.smul_mk, Vec3.add_mk, Vec3.sub_mk]
    rw [show (-(1/10) * 15 + 50 - (-(1/10) * 10 + 0) : ℝ) = 49.5 by norm_num,
      show (Real.sqrt 24.75 / 5 * 15 + 0 - (Real.sqrt 24.75 / 5 * 10 + 0) : ℝ)
        = Real.sqrt 24.75 by ring,
      show ((0:ℝ) * 15 + 0 - (0 * 10 + 0)) = 0 by ring]
    exact wheels_base_len _ _ (by norm_num) sq24

/-- Wheel tangent `cW1 → cW0` (forward orientation, `pos` point). -/
theorem wheels_t10 : ∃ t, mkTangentLine cW1 cW0 = .ok t ∧
    t.direction = Vec3.mk (-49.5 / Real.sqrt 2475) (Real.sqrt 24.75 / Real.sqrt 2475) 0 ∧
    t.length = Real.sqrt 2475 := by
  have hgt : (15:ℝ) > 10 := by norm_num
  have hn : Circle.find_positive_external_tangent_normal cW1 cW0 =
      .ok (Vec3.mk (-(1 / 10)) (-Real.sqrt 24.75 / 5) 0) := by
    simp only [cW1, cW0, Circle.find_positive_external_tangent_normal, if_pos hgt,
      wheels_bis1, wheels_diff1, wheels_i1, Except.map, Vec3.sub_mk]
    refine congrArg Except.ok ?_
    rw [show (49.5:ℝ) - 50 = -(1 / 2) by norm_num,
      show (-Real.sqrt 24.75 - 0 : ℝ) = -Real.sqrt 24.75 by ring,
      show (0:ℝ) - 0 = 0 by ring,
      normal_of_length _ 5 (by
        rw [Vec3.length_mk, show (-(1/2):ℝ) ^ 2 + (-Real.sqrt 24.75) ^ 2 + 0 ^ 2
          = 25 by rw [show ((-Real.sqrt 24.75 : ℝ)) ^ 2 = Real.sqrt 24.75 ^ 2 by ring,
            sq24]; norm_num]
        exact sqrt_eval (by norm_num) (by norm_num)) (by norm_num), Vec3.smul_mk]
    simp only [Vec3.mk.injEq]
    exact ⟨by norm_num, by rw [mul_one_div], by norm_num⟩
  refine ⟨_, mkTangentLine_eval cW1 cW0 _ hn, ?_, ?_⟩
  · simp only [cW0, cW1, Vec3.smul_mk, Vec3.add_mk, Vec3.sub_mk]
    rw [show (-(1/10) * 10 + 0 - (-(1/10) * 15 + 50) : ℝ) = -49.5 by norm_num,
      show (-Real.sqrt 24.75 / 5 * 10 + 0 - (-Real.sqrt 24.75 / 5 * 15 + 0) : ℝ)
        = Real.sqrt 24.75 by ring,
      show ((0:ℝ) * 10 + 0 - (0 * 15 + 0)) = 0 by ring,
      normal_of_length _ (Real.sqrt 2475)
        (wheels_base_len _ _ (by norm_num) sq24) sqrt2475_pos.ne', Vec3.smul_mk]
    simp only [Vec3.mk.injEq]
    exact ⟨by rw [mul_one_div], by rw [mul_one_div], by norm_num⟩
  · simp only [cW0, cW1, Vec3.smul_mk, Vec3.add_mk, Vec3.sub_mk]
    rw [show (-(1/10) * 10 + 0 - (-(1/10) * 15 + 50) : ℝ) = -49.5 by norm_num,
      show (-Real.sqrt 24.75 / 5 * 10 + 0 - (-Real.sqrt 24.75 / 5 * 15 + 0) : ℝ)
        = Real.sqrt 24.75 by ring,
      show ((0:ℝ) * 10 + 0 - (0 * 15 + 0)) = 0 by ring]
    exact wheels_base_len _ _ (by norm_num) sq24

/-- Wheel tangent `cW1 → cW2` (forward orientation, `pos` point). -/
theorem wheels_t12 : ∃ t, mkTangentLine cW1 cW2 = .ok t ∧
    t.direction = Vec3.mk (49.5 / Real.sqrt 2475) (-Real.sqrt 24.75 / Real.sqrt 2475) 0 ∧
    t.length = Real.sqrt 2475 := by
  have hgt : (15:ℝ) > 10 := by norm_num
  have hb2 : (-Real.sqrt 24.75 : ℝ) ^ 2 = 24.75 := by
    rw [show ((-Real.sqrt 24.75 : ℝ)) ^ 2 = Real.sqrt 24.75 ^ 2 by ring, sq24]
  have hn : Circle.find_positive_external_tangent_normal cW1 cW2 =
      .ok (Vec3.mk (1 / 10) (Real.sqrt 24.75 / 5) 0) := by
    simp only [cW1, cW2, Circle.find_positive_external_tangent_normal, if_pos hgt,
      wheels_bis2, wheels_diff2, wheels_i2, Except.map, Vec3.sub_mk]
    refine congrArg Except.ok ?_
    rw [show (50.5:ℝ) - 50 = 1 / 2 by norm_num,
      show (Real.sqrt 24.75 - 0 : ℝ) = Real.sqrt 24.75 by ring,
      show (0:ℝ) - 0 = 0 by ring,
      normal_of_length _ 5 (by
        rw [Vec3.length_mk, show ((1/2):ℝ) ^ 2 + Real.sqrt 24.75 ^ 2 + 0 ^ 2
          = 25 by rw [sq24]; norm_num]
        exact sqrt_eval (by norm_num) (by norm_num)) (by norm_num), Vec3.smul_mk]
    simp only [Vec3.mk.injEq]
    exact ⟨by norm_num, by rw [mul_one_div], by norm_num⟩
  refine ⟨_, mkTangentLine_eval cW1 cW2 _ hn, ?_, ?_⟩
  · simp only [cW1, cW2, Vec3.smul_mk, Vec3.add_mk, Vec3.sub_mk]
    rw [show ((1/10) * 10 + 100 - ((1/10) * 15 + 50) : ℝ) = 49.5 by norm_num,
      show (Real.sqrt 24.75 / 5 * 10 + 0 - (Real.sqrt 24.75 / 5 * 15 + 0) : ℝ)
        = -Real.sqrt 24.75 by ring,
      show ((0:ℝ) * 10 + 0 - (0 * 15 + 0)) = 0 by ring,
      normal_of_length _ (Real.sqrt 2475)
        (wheels_base_len _ _ (by norm_num) hb2) sqrt2475_pos.ne', Vec3.smul_mk]
    simp only [Vec3.mk.injEq]
    exact ⟨by rw [mul_one_div], by rw [mul_one_div], by norm_num⟩
  · simp only [cW1, cW2, Vec3.smul_mk, Vec3.add_mk, Vec3.sub_mk]
    rw [show ((1/10) * 10 + 100 - ((1/10) * 15 + 50) : ℝ) = 49.5 by norm_num,
      show (Real.sqrt 24.75 / 5 * 10 + 0 - (Real.sqrt 24.75 / 5 * 15 + 0) : ℝ)
        = -Real.sqrt 24.75 by ring,
      show ((0:ℝ) * 10 + 0 - (0 * 15 + 0)) = 0 by ring]
    exact wheels_base_len _ _ (by norm_num) hb2

/-- Wheel tangent `cW2 → cW1` (reversed orientation, `neg` point). -/
theorem wheels_t21 : ∃ t, mkTangentLine cW2 cW1 = .ok t ∧
    t.direction = Vec3.mk (-49.5 / Real.sqrt 2475) (-Real.sqrt 24.75 / Real.sqrt 2475) 0 ∧
    t.length = Real.sqrt 2475 := by
  have hlt : ¬ ((10:ℝ) > 15) := by norm_num
  have hb2 : (-Real.sqrt 24.75 : ℝ) ^ 2 = 24.75 := by
    rw [show ((-Real.sqrt 24.75 : ℝ)) ^ 2 = Real.sqrt 24.75 ^ 2 by ring, sq24]
  have hn : Circle.find_positive_external_tangent_normal cW2 cW1 =
      .ok (Vec3.mk (1 / 10) (-Real.sqrt 24.75 / 5) 0) := by
    simp only [cW2, cW1, Circle.find_positive_external_tangent_normal, if_neg hlt,
      wheels_bis2, wheels_diff2, wheels_i2, Except.map, Vec3.sub_mk]
    refine congrArg Except.ok ?_
    rw [show (50.5:ℝ) - 50 = 1 / 2 by norm_num,
      show (-Real.sqrt 24.75 - 0 : ℝ) = -Real.sqrt 24.75 by ring,
      show (0:ℝ) - 0 = 0 by ring,
      normal_of_length _ 5 (by
        rw [Vec3.length_mk, show ((1/2):ℝ) ^ 2 + (-Real.sqrt 24.75) ^ 2 + 0 ^ 2
          = 25 by rw [hb2]; norm_num]
        exact sqrt_eval (by norm_num) (by norm_num)) (by norm_num), Vec3.smul_mk]
    simp only [Vec3.mk.injEq]
    exact ⟨by norm_num, by rw [mul_one_div], by norm_num⟩
  refine ⟨_, mkTangentLine_eval cW2 cW1 _ hn, ?_, ?_⟩
  · simp only [cW1, cW2, Vec3.smul_mk, Vec3.add_mk, Vec3.sub_mk]
    rw [show ((1/10) * 15 + 50 - ((1/10) * 10 + 100) : ℝ) = -49.5 by norm_num,
      show (-Real.sqrt 24.75 / 5 * 15 + 0 - (-Real.sqrt 24.75 / 5 * 10 + 0) : ℝ)
        = -Real.sqrt 24.75 by ring,
      show ((0:ℝ) * 15 + 0 - (0 * 10 + 0)) = 0 by ring,
      normal_of_length _ (Real.sqrt 2475)
        (wheels_base_len _ _ (by norm_num) hb2) sqrt2475_pos.ne', Vec3.smul_mk]
    simp only [Vec3.mk.injEq]
    exact ⟨by rw [mul_one_div], by rw [mul_one_div], by norm_num⟩
  · simp only [cW1, cW2, Vec3.smul_mk, Vec3.add_mk, Vec3.sub_mk]
    rw [show ((1/10) * 15 + 50 - ((1/10) * 10 + 100) : ℝ) = -49.5 by norm_num,
      show (-Real.sqrt 24.75 / 5 * 15 + 0 - (-Real.sqrt 24.75 / 5 * 10 + 0) : ℝ)
        = -Real.sqrt 24.75 by ring,
      show ((0:ℝ) * 15 + 0 - (0 * 10 + 0)) = 0 by ring]
    exact wheels_base_len _ _ (by norm_num) hb2

theorem sq24neg : (-Real.sqrt 24.75 : ℝ) ^ 2 = 24.75 := by
  rw [show ((-Real.sqrt 24.75 : ℝ)) ^ 2 = Real.sqrt 24.75 ^ 2 by ring, sq24]

theorem le_sqrt2475 : (49.5:ℝ) ≤ Real.sqrt 2475 :=
  (Real.le_sqrt' (by norm_num)).mpr (by norm_num)

theorem cmp_98 : (0.98:ℝ) * Real.sqrt 2475 < 49.5 := by
  have h : Real.sqrt 2475 < 4950 / 98 :=
    (Real.sqrt_lt' (by norm_num)).mpr (by norm_num)
  nlinarith [h]

theorem cmp_neg : (-49.5:ℝ) / Real.sqrt 2475 < -0.98 := by
  rw [div_lt_iff₀ sqrt2475_pos]
  nlinarith [cmp_98]

theorem neg_one_le_cmp : (-1:ℝ) ≤ -49.5 / Real.sqrt 2475 := by
  rw [le_div_iff₀ sqrt2475_pos]
  nlinarith [le_sqrt2475]

theorem withIdx_wheels : withIdx wheels 0 = [(0, cW0), (1, cW1), (2, cW2)] := by
  simp [wheels, withIdx]

theorem argminX_wheels : argminX (withIdx wheels 0) = some (0, cW0) := by
  rw [withIdx_wheels]
  simp only [argminX, List.foldl]
  rw [if_neg (by norm_num [cW0, cW1] : ¬ ((1, cW1).2.center.x < (0, cW0).2.center.x)),
    if_neg (by norm_num [cW0, cW2] : ¬ ((2, cW2).2.center.x < (0, cW0).2.center.x))]

theorem wrapPath_five (p1 p2 p3 p4 p5 : Part) :
    wrapPath [p1, p2, p3, p4, p5] = [{ p1 with arcStart := p5.arcStart }, p2, p3, p4] := by
  simp [wrapPath, List.getLast?_cons_cons, List.getLast?_singleton, List.dropLast,
    List.modifyHead]

/-- Full evaluation of the three-wheel build: the traversal runs
0 → 1 → 2 → 1 → 0 (the large middle wheel is wrapped twice, once along the
top and once along the bottom), producing four path parts whose tangents all
have length `√2475`. -/
theorem wheels_run : ∃ t01 t12 t21 t10 : TangentLine,
    t01.length = Real.sqrt 2475 ∧ t12.length = Real.sqrt 2475 ∧
    t21.length = Real.sqrt 2475 ∧ t10.length = Real.sqrt 2475 ∧
    buildBeltPath wheels 9 = some (.ok
      ([{ idx := 0, circle := cW0,
          arcStart := t10.normal * cW0.radius + cW0.center,
          arcEnd := t01.normal * cW0.radius + cW0.center, tangent := some t01 },
        { idx := 1, circle := cW1,
          arcStart := t01.normal * cW1.radius + cW1.center,
          arcEnd := t12.normal * cW1.radius + cW1.center, tangent := some t12 },
        { idx := 2, circle := cW2,
          arcStart := t12.normal * cW2.radius + cW2.center,
          arcEnd := t21.normal * cW2.radius + cW2.center, tangent := some t21 },
        { idx := 1, circle := cW1,
          arcStart := t21.normal * cW1.radius + cW1.center,
          arcEnd := t10.normal * cW1.radius + cW1.center, tangent := some t10 }],
       wheels)) := by
  obtain ⟨t01, hok01, hdir01, hlen01⟩ := wheels_t01
  obtain ⟨t10, hok10, hdir10, hlen10⟩ := wheels_t10
  obtain ⟨t12, hok12, hdir12, hlen12⟩ := wheels_t12
  obtain ⟨t21, hok21, hdir21, hlen21⟩ := wheels_t21
  obtain ⟨t02, hok02, hdir02, hlen02, hbase02⟩ :=
    mkTangentLine_row_right 0 100 0 10 (by norm_num)
  obtain ⟨t20, hok20, hdir20, hlen20, hbase20⟩ :=
    mkTangentLine_row_left 100 0 0 10 (by norm_num)
  have hok02' : mkTangentLine cW0 cW2 = .ok t02 := hok02
  have hok20' : mkTangentLine cW2 cW0 = .ok t20 := hok20
  have len_g2 : (Vec3.mk (49.5 / Real.sqrt 2475) (Real.sqrt 24.75 / Real.sqrt 2475)
      0).length = 1 := wheels_len_gen _ _ (by norm_num) sq24
  have len_d10 : (Vec3.mk (-49.5 / Real.sqrt 2475) (Real.sqrt 24.75 / Real.sqrt 2475)
      0).length = 1 := wheels_len_gen _ _ (by norm_num) sq24
  have len_g3 : (Vec3.mk (49.5 / Real.sqrt 2475) (-Real.sqrt 24.75 / Real.sqrt 2475)
      0).length = 1 := wheels_len_gen _ _ (by norm_num) sq24neg
  have len_g4 : (Vec3.mk (-49.5 / Real.sqrt 2475) (-Real.sqrt 24.75 / Real.sqrt 2475)
      0).length = 1 := wheels_len_gen _ _ (by norm_num) sq24neg
  have hfind0 : findExtTangent (0, cW0) ⟨0, 1, 0⟩ (withIdx wheels 0) =
      .ok (some (t01, (1, cW1))) := by
    simp only [findExtTangent, withIdx_wheels]
    rw [findExtLoop_skip (0, cW0) (0, cW0) ⟨0, 1, 0⟩ [(1, cW1), (2, cW2)] none rfl,
      findExtLoop_first (0, cW0) (1, cW1) ⟨0, 1, 0⟩ [(2, cW2)] t01 (by decide) hok01,
      hdir01, wheels_angle_up 49.5 (Real.sqrt 24.75) len_g2,
      findExtLoop_keep (0, cW0) (2, cW2) ⟨0, 1, 0⟩ [] t02
        (Real.arccos (Real.sqrt 24.75 / Real.sqrt 2475), t01, (1, cW1)) (by decide) hok02'
        (by
          rw [hdir02, angle_up_right, ← Real.arccos_zero]
          exact not_arccos_lt_arccos_of (by positivity)),
      findExtLoop_nil]
    rfl
  have hfind1a : findExtTangent (1, cW1)
      (Vec3.mk (49.5 / Real.sqrt 2475) (Real.sqrt 24.75 / Real.sqrt 2475) 0)
      (withIdx wheels 0) = .ok (some (t12, (2, cW2))) := by
    simp only [findExtTangent, withIdx_wheels]
    rw [findExtLoop_first (1, cW1) (0, cW0) _ [(1, cW1), (2, cW2)] t10 (by decide) hok10,
      hdir10, wheels_angle_gen 49.5 (Real.sqrt 24.75) (-49.5) (Real.sqrt 24.75)
        len_g2 len_d10,
      show (49.5 * -49.5 + Real.sqrt 24.75 * Real.sqrt 24.75) / 2475 = (-0.98 : ℝ) from by
        rw [sq24']
        norm_num,
      findExtLoop_skip (1, cW1) (1, cW1) _ [(2, cW2)] _ rfl,
      findExtLoop_take (1, cW1) (2, cW2) _ [] t12
        (Real.arccos (-0.98), t10, (0, cW0)) (by decide) hok12
        (by
          rw [hdir12, wheels_angle_gen 49.5 (Real.sqrt 24.75) 49.5 (-Real.sqrt 24.75)
            len_g2 len_g3,
            show (49.5 * 49.5 + Real.sqrt 24.75 * -Real.sqrt 24.75) / 2475
              = (0.98 : ℝ) from by
              rw [show (49.5 * 49.5 + Real.sqrt 24.75 * -Real.sqrt 24.75 : ℝ)
                = 2450.25 - Real.sqrt 24.75 * Real.sqrt 24.75 by ring, sq24']
              norm_num]
          exact arccos_lt_arccos_of (by norm_num) (by norm_num) (by norm_num)),
      findExtLoop_nil]
    rfl
  have hfind2 : findExtTangent (2, cW2)
      (Vec3.mk (49.5 / Real.sqrt 2475) (-Real.sqrt 24.75 / Real.sqrt 2475) 0)
      (withIdx wheels 0) = .ok (some (t21, (1, cW1))) := by
    simp only [findExtTangent, withIdx_wheels]
    rw [findExtLoop_first (2, cW2) (0, cW0) _ [(1, cW1), (2, cW2)] t20 (by decide) hok20',
      hdir20, wheels_angle_axis 49.5 (-Real.sqrt 24.75) (-1) len_g3 len_neg_unit_x,
      show (49.5 * -1 : ℝ) = -49.5 by norm_num,
      findExtLoop_take (2, cW2) (1, cW1) _ [(2, cW2)] t21
        (Real.arccos (-49.5 / Real.sqrt 2475), t20, (0, cW0)) (by decide) hok21
        (by
          rw [hdir21, wheels_angle_gen 49.5 (-Real.sqrt 24.75) (-49.5) (-Real.sqrt 24.75)
            len_g3 len_g4,
            show (49.5 * -49.5 + -Real.sqrt 24.75 * -Real.sqrt 24.75) / 2475
              = (-0.98 : ℝ) from by
              rw [show (49.5 * -49.5 + -Real.sqrt 24.75 * -Real.sqrt 24.75 : ℝ)
                = Real.sqrt 24.75 * Real.sqrt 24.75 - 2450.25 by ring, sq24']
              norm_num]
          exact arccos_lt_arccos_of neg_one_le_cmp cmp_neg (by norm_num)),
      findExtLoop_skip (2, cW2) (2, cW2) _ [] _ rfl,
      findExtLoop_nil]
    rfl
  have hfind1b : findExtTangent (1, cW1)
      (Vec3.mk (-49.5 / Real.sqrt 2475) (-Real.sqrt 24.75 / Real.sqrt 2475) 0)
      (withIdx wheels 0) = .ok (some (t10, (0, cW0))) := by
    simp only [findExtTangent, withIdx_wheels]
    rw [findExtLoop_first (1, cW1) (0, cW0) _ [(1, cW1), (2, cW2)] t10 (by decide) hok10,
      hdir10, wheels_angle_gen (-49.5) (-Real.sqrt 24.75) (-49.5) (Real.sqrt 24.75)
        len_g4 len_d10,
      show ((-49.5) * -49.5 + -Real.sqrt 24.75 * Real.sqrt 24.75) / 2475
        = (0.98 : ℝ) from by
        rw [show ((-49.5) * -49.5 + -Real.sqrt 24.75 * Real.sqrt 24.75 : ℝ)
          = 2450.25 - Real.sqrt 24.75 * Real.sqrt 24.75 by ring, sq24']
        norm_num,
      findExtLoop_skip (1, cW1) (1, cW1) _ [(2, cW2)] _ rfl,
      findExtLoop_keep (1, cW1) (2, cW2) _ [] t12
        (Real.arccos 0.98, t10, (0, cW0)) (by decide) hok12
        (by
          rw [hdir12, wheels_angle_gen (-49.5) (-Real.sqrt 24.75) 49.5 (-Real.sqrt 24.75)
            len_g4 len_g3,
            show ((-49.5) * 49.5 + -Real.sqrt 24.75 * -Real.sqrt 24.75) / 2475
              = (-0.98 : ℝ) from by
              rw [show ((-49.5) * 49.5 + -Real.sqrt 24.75 * -Real.sqrt 24.75 : ℝ)
                = Real.sqrt 24.75 * Real.sqrt 24.75 - 2450.25 by ring, sq24']
              norm_num]
          exact not_arccos_lt_arccos_of (by norm_num)),
      findExtLoop_nil]
    rfl
  refine ⟨t01, t12, t21, t10, hlen01, hlen12, hlen21, hlen10, ?_⟩
  simp only [buildBeltPath, argminX_wheels]
  rw [show (9:ℕ) = 8 + 1 from rfl,
    beltLoop_step wheels (withIdx wheels 0) 8 none (0, cW0) (1, cW1) ⟨0, 1, 0⟩ _
      t01 (by simp) hfind0]
  simp only [updateLast, mkPart, List.cons_append, List.nil_append, Option.getD_none,
    Option.getD_some, hdir01]
  rw [show (8:ℕ) = 7 + 1 from rfl,
    beltLoop_step wheels (withIdx wheels 0) 7 (some 0) (1, cW1) (2, cW2)
      (Vec3.mk (49.5 / Real.sqrt 2475) (Real.sqrt 24.75 / Real.sqrt 2475) 0) _
      t12 (by simp) hfind1a]
  simp only [updateLast, mkPart, List.cons_append, List.nil_append, Option.getD_none,
    Option.getD_some, hdir12]
  rw [show (7:ℕ) = 6 + 1 from rfl,
    beltLoop_step wheels (withIdx wheels 0) 6 (some 0) (2, cW2) (1, cW1)
      (Vec3.mk (49.5 / Real.sqrt 2475) (-Real.sqrt 24.75 / Real.sqrt 2475) 0) _
      t21 (by simp) hfind2]
  simp only [updateLast, mkPart, List.cons_append, List.nil_append, Option.getD_none,
    Option.getD_some, hdir21]
  rw [show (6:ℕ) = 5 + 1 from rfl,
    beltLoop_step wheels (withIdx wheels 0) 5 (some 0) (1, cW1) (0, cW0)
      (Vec3.mk (-49.5 / Real.sqrt 2475) (-Real.sqrt 24.75 / Real.sqrt 2475) 0) _
      t10 (by simp) hfind1b]
  simp only [updateLast, mkPart, List.cons_append, List.nil_append, Option.getD_none,
    Option.getD_some, hdir10]
  rw [beltLoop_exit wheels (withIdx wheels 0) 5 (some 0) (0, cW0)
    (Vec3.mk (-49.5 / Real.sqrt 2475) (Real.sqrt 24.75 / Real.sqrt 2475) 0) _ rfl,
    wrapPath_five]

/-! ### C3 -/

/-- C3 amended: on the spec's three-wheel input the traversal terminates with
order 0 → 1 → 2 → 1 → 0: the large middle wheel is visited twice (top and
bottom of the belt), so there are exactly four path parts, not three, and
every tangent's length is `√2475 ≈ 49.75`, strictly positive. -/
theorem c3_wheels_path :
    ∃ (path : List Part) (circs : List Circle),
      buildBeltPath wheels 9 = some (.ok (path, circs)) ∧
      path.map Part.idx = [0, 1, 2, 1] ∧
      path.length = 4 ∧
      path.map (fun p => p.tangent.map TangentLine.length) =
        [some (Real.sqrt 2475), some (Real.sqrt 2475), some (Real.sqrt 2475),
          some (Real.sqrt 2475)] ∧
      0 < Real.sqrt 2475 := by
  obtain ⟨t01, t12, t21, t10, hlen01, hlen12, hlen21, hlen10, hrun⟩ := wheels_run
  refine ⟨_, _, hrun, ?_, rfl, ?_, sqrt2475_pos⟩
  · simp only [List.map_cons, List.map_nil]
  · simp only [List.map_cons, List.map_nil, Option.map_some', hlen01, hlen12, hlen21,
      hlen10]

/-- C3 counterexample: the three-wheel build yields four path parts in order
0 → 1 → 2 → 1, not the claimed three parts in order 0 → 1 → 2. -/
theorem c3_counterexample :
    ∃ (path : List Part) (circs : List Circle),
      buildBeltPath wheels 9 = some (.ok (path, circs)) ∧
      path.length = 4 ∧ ¬ path.length = 3 ∧
      path.map Part.idx = [0, 1, 2, 1] := by
  obtain ⟨t01, t12, t21, t10, _, _, _, _, hrun⟩ := wheels_run
  refine ⟨_, _, hrun, rfl, by simp, ?_⟩
  simp only [List.map_cons, List.map_nil]

/-! ### C4 -/

/-- C4 amended: at every traversal step the tangent candidates are all the
circles of the full input list other than the current one — there is no
visited marking, the chosen node is only guaranteed to be a different member
of the list — and a previously visited circle can be chosen again: in the
three-wheel run, circle 1 is chosen at two different steps. -/
theorem c4_candidates_full_list :
    (∀ (self : ℕ × Circle) (guide : Vec3) (nodes : List (ℕ × Circle))
      (t : TangentLine) (n : ℕ × Circle),
      findExtTangent self guide nodes = .ok (some (t, n)) →
        n ∈ nodes ∧ ¬ n.1 = self.1) ∧
    (∃ (path : List Part) (circs : List Circle),
      buildBeltPath wheels 9 = some (.ok (path, circs)) ∧
      (path.map Part.idx).count 1 = 2) := by
  constructor
  · exact fun self guide nodes t n h => findExtTangent_mem self guide nodes t n h
  · obtain ⟨t01, t12, t21, t10, _, _, _, _, hrun⟩ := wheels_run
    refine ⟨_, _, hrun, ?_⟩
    simp only [List.map_cons, List.map_nil]
    rfl

/-- C4 witness: a concrete selection step returns a node of the candidate
list different from the current one. -/
theorem c4_candidates_full_list_witness :
    (1, cS1) ∈ withIdx smallPair 0 ∧ ¬ (1, cS1).1 = (0, cS0).1 := by
  obtain ⟨t01, t10, _, _, _, _, _, _, _, _, hfind1, _⟩ := smallPair_steps
  exact c4_candidates_full_list.1 (0, cS0) ⟨0, 1, 0⟩ (withIdx smallPair 0) t01
    (1, cS1) hfind1

/-- C4 counterexample: in the three-wheel run the list of visited indices
`[0, 1, 2, 1]` has a repeat — the circle chosen at step 1 is considered and
chosen again at step 3, contradicting the claimed visited-marking. -/
theorem c4_counterexample :
    ∃ (path : List Part) (circs : List Circle),
      buildBeltPath wheels 9 = some (.ok (path, circs)) ∧
      ¬ (path.map Part.idx).Nodup := by
  obtain ⟨t01, t12, t21, t10, _, _, _, _, hrun⟩ := wheels_run
  refine ⟨_, _, hrun, ?_⟩
  simp only [List.map_cons, List.map_nil]
  decide

/-! ### C10 -/

/-- C10: `create_bisector_circle` is symmetric in its two circles; the result
is centered at the midpoint of the two centers and has radius half the
distance between them. -/
theorem c10_bisector_symmetric (a b : Circle) :
    a.create_bisector_circle b = b.create_bisector_circle a ∧
    (a.create_bisector_circle b).center = (a.center + b.center) * (1 / 2 : ℝ) ∧
    (a.create_bisector_circle b).radius = (b.center - a.center).length / 2 := by
  rcases a with ⟨⟨ax, ay, az⟩, ar⟩
  rcases b with ⟨⟨bx, by', bz⟩, br⟩
  simp only [Circle.create_bisector_circle, Vec3.sub_mk, Vec3.smul_mk, Vec3.add_mk,
    Vec3.length_mk, Circle.mk.injEq, Vec3.mk.injEq]
  refine ⟨⟨⟨by ring, by ring, by ring⟩, ?_⟩, ⟨by ring, by ring, by ring⟩, ?_⟩
  · congr 1
    ring
  · rw [show ((bx - ax) * 0.5) ^ 2 + ((by' - ay) * 0.5) ^ 2 + ((bz - az) * 0.5) ^ 2
        = ((bx - ax) ^ 2 + (by' - ay) ^ 2 + (bz - az) ^ 2) * (1 / 2) ^ 2 by ring,
      Real.sqrt_mul (by positivity), Real.sqrt_sq (by norm_num : (0:ℝ) ≤ 1 / 2)]
    ring

/-! ### C6 -/

/-- C6 amended: for two identical circles (same center and radius) the
tangent-normal computation fails with the bare `ZeroDivisionError` of the
intersection formula — it does not return points, but the error is not a
descriptive `DegenerateGeometry`. -/
theorem c6_identical_zero_division (center : Vec3) (radius : ℝ) :
    Circle.find_positive_external_tangent_normal ⟨center, radius⟩ ⟨center, radius⟩ =
      .error .zeroDivision :=
  fpetn_self _

/-- C6 counterexample: on two identical unit circles the computation raises
`ZeroDivisionError`, which is not the `DegenerateGeometry` error the claim
demands (no such error kind exists in the code). -/
theorem c6_counterexample :
    Circle.find_positive_external_tangent_normal ⟨⟨0, 0, 0⟩, 1⟩ ⟨⟨0, 0, 0⟩, 1⟩ =
      .error .zeroDivision ∧ Err.zeroDivision ≠ Err.degenerateGeometry :=
  ⟨fpetn_self _, by decide⟩

/-! ### C8 -/

/-- C8: for circles with distinct radii, swapping the arguments of
`find_positive_external_tangent_normal` keeps the same main circle (the
larger one, here `A`) and the same bisector/difference intersection, but
flips which of the two intersection points (`pos` for the forward order,
`neg` for the reversed order) the returned normal is derived from. -/
theorem c8_swap_flips_solution (A B : Circle) (h : A.radius > B.radius) :
    A.find_positive_external_tangent_normal B =
      ((A.create_bisector_circle B).find_intersection
        (A.create_difference_circle B)).map (fun pn => (pn.1 - A.center).normal) ∧
    B.find_positive_external_tangent_normal A =
      ((A.create_bisector_circle B).find_intersection
        (A.create_difference_circle B)).map (fun pn => (pn.2 - A.center).normal) := by
  constructor
  · simp only [Circle.find_positive_external_tangent_normal, gt_iff_lt, if_pos h]
  · simp only [Circle.find_positive_external_tangent_normal, gt_iff_lt,
      if_neg (lt_asymm h)]

/-- C8 witness at circles of radius 2 and 1. -/
theorem c8_swap_flips_solution_witness :
    (Circle.mk ⟨0, 0, 0⟩ 2).radius > (Circle.mk ⟨3, 0, 0⟩ 1).radius ∧
    ((Circle.mk ⟨0, 0, 0⟩ 2).find_positive_external_tangent_normal ⟨⟨3, 0, 0⟩, 1⟩ =
      (((Circle.mk ⟨0, 0, 0⟩ 2).create_bisector_circle ⟨⟨3, 0, 0⟩, 1⟩).find_intersection
        ((Circle.mk ⟨0, 0, 0⟩ 2).create_difference_circle ⟨⟨3, 0, 0⟩, 1⟩)).map
          (fun pn => (pn.1 - (Circle.mk ⟨0, 0, 0⟩ 2).center).normal) ∧
    (Circle.mk ⟨3, 0, 0⟩ 1).find_positive_external_tangent_normal ⟨⟨0, 0, 0⟩, 2⟩ =
      (((Circle.mk ⟨0, 0, 0⟩ 2).create_bisector_circle ⟨⟨3, 0, 0⟩, 1⟩).find_intersection
        ((Circle.mk ⟨0, 0, 0⟩ 2).create_difference_circle ⟨⟨3, 0, 0⟩, 1⟩)).map
          (fun pn => (pn.2 - (Circle.mk ⟨0, 0, 0⟩ 2).center).normal)) :=
  ⟨by norm_num, c8_swap_flips_solution _ _ (by norm_num)⟩

/-! ### Planar direction and angle helpers -/

/-- Normalizing a planar vector whose squared length is `q`. -/
theorem normal_div (dx dy q : ℝ) (hq : 0 < q) (h : dx ^ 2 + dy ^ 2 = q) :
    (Vec3.mk dx dy 0).normal =
      Vec3.mk (dx / Real.sqrt q) (dy / Real.sqrt q) 0 := by
  have hL : (Vec3.mk dx dy 0).length = Real.sqrt q := by
    rw [Vec3.length_mk, show dx ^ 2 + dy ^ 2 + (0:ℝ) ^ 2 = q by rw [← h]; ring]
  have hs : ¬ Real.sqrt q = 0 := (Real.sqrt_pos.mpr hq).ne'
  rw [normal_of_length _ _ hL hs, Vec3.smul_mk]
  simp only [Vec3.mk.injEq]
  exact ⟨mul_one_div dx _, mul_one_div dy _, by ring⟩

/-- A normalized planar vector has length one. -/
theorem len_div (dx dy q : ℝ) (hq : 0 < q) (h : dx ^ 2 + dy ^ 2 = q) :
    (Vec3.mk (dx / Real.sqrt q) (dy / Real.sqrt q) 0).length = 1 := by
  rw [Vec3.length_mk,
    show (dx / Real.sqrt q) ^ 2 + (dy / Real.sqrt q) ^ 2 + (0:ℝ) ^ 2
      = (dx ^ 2 + dy ^ 2) / Real.sqrt q ^ 2 by ring,
    h, Real.sq_sqrt hq.le, div_self hq.ne', Real.sqrt_one]

/-- Angle between two normalized planar directions. -/
theorem angle_div (a1 b1 q1 a2 b2 q2 : ℝ) (hq1 : 0 < q1) (hq2 : 0 < q2)
    (h1 : a1 ^ 2 + b1 ^ 2 = q1) (h2 : a2 ^ 2 + b2 ^ 2 = q2) :
    Vec3.angle (Vec3.mk (a1 / Real.sqrt q1) (b1 / Real.sqrt q1) 0)
        (Vec3.mk (a2 / Real.sqrt q2) (b2 / Real.sqrt q2) 0)
      = Real.arccos ((a1 * a2 + b1 * b2) / Real.sqrt (q1 * q2)) := by
  have hs1 : Real.sqrt q1 ≠ 0 := (Real.sqrt_pos.mpr hq1).ne'
  have hs2 : Real.sqrt q2 ≠ 0 := (Real.sqrt_pos.mpr hq2).ne'
  rw [Vec3.angle, len_div a1 b1 q1 hq1 h1, len_div a2 b2 q2 hq2 h2, Vec3.dot_mk,
    Real.sqrt_mul hq1.le]
  congr 1
  field_simp

/-- Angle between a normalized planar direction and a unit x-axis vector. -/
theorem angle_div_axis (a b q c : ℝ) (hq : 0 < q) (h : a ^ 2 + b ^ 2 = q)
    (hc : (Vec3.mk c 0 0).length = 1) :
    Vec3.angle (Vec3.mk (a / Real.sqrt q) (b / Real.sqrt q) 0) (Vec3.mk c 0 0)
      = Real.arccos (a * c / Real.sqrt q) := by
  rw [Vec3.angle, len_div a b q hq h, hc, Vec3.dot_mk]
  congr 1
  ring

/-- Angle between the initial up guide and a normalized planar direction. -/
theorem angle_up_div (a b q : ℝ) (hq : 0 < q) (h : a ^ 2 + b ^ 2 = q) :
    Vec3.angle ⟨0, 1, 0⟩ (Vec3.mk (a / Real.sqrt q) (b / Real.sqrt q) 0)
      = Real.arccos (b / Real.sqrt q) := by
  rw [Vec3.angle, len_div a b q hq h, Vec3.length_mk,
    show (0:ℝ) ^ 2 + 1 ^ 2 + 0 ^ 2 = 1 by norm_num, Real.sqrt_one, Vec3.dot_mk]
  congr 1
  ring

/-! ### Square-root comparison helpers -/

theorem div_sqrt_lt_div_sqrt (a b p q : ℝ) (ha : 0 ≤ a) (hb : 0 ≤ b)
    (hp : 0 < p) (hq : 0 < q) (key : a ^ 2 * q < b ^ 2 * p) :
    a / Real.sqrt p < b / Real.sqrt q := by
  have hsp : 0 < Real.sqrt p := Real.sqrt_pos.mpr hp
  have hsq : 0 < Real.sqrt q := Real.sqrt_pos.mpr hq
  rw [div_lt_div_iff hsp hsq]
  have h1 : (a * Real.sqrt q) ^ 2 < (b * Real.sqrt p) ^ 2 := by
    rw [mul_pow, mul_pow, Real.sq_sqrt hq.le, Real.sq_sqrt hp.le]
    exact key
  exact lt_of_pow_lt_pow_left 2 (mul_nonneg hb hsp.le) h1

theorem div_sqrt_le_div_sqrt (a b p q : ℝ) (ha : 0 ≤ a) (hb : 0 ≤ b)
    (hp : 0 < p) (hq : 0 < q) (key : a ^ 2 * q ≤ b ^ 2 * p) :
    a / Real.sqrt p ≤ b / Real.sqrt q := by
  have hsp : 0 < Real.sqrt p := Real.sqrt_pos.mpr hp
  have hsq : 0 < Real.sqrt q := Real.sqrt_pos.mpr hq
  rw [div_le_div_iff hsp hsq]
  have h1 : (a * Real.sqrt q) ^ 2 ≤ (b * Real.sqrt p) ^ 2 := by
    rw [mul_pow, mul_pow, Real.sq_sqrt hq.le, Real.sq_sqrt hp.le]
    exact key
  exact le_of_pow_le_pow_left (by norm_num) (mul_nonneg hb hsp.le) h1

theorem div_sqrt_le_one (a q : ℝ) (ha : 0 < a) (hq : 0 < q) (key : a ^ 2 ≤ q) :
    a / Real.sqrt q ≤ 1 := by
  rw [div_le_one (Real.sqrt_pos.mpr hq)]
  exact (Real.le_sqrt' ha).mpr key

theorem neg_div_sqrt_le_one (a q : ℝ) (ha : 0 ≤ a) (hq : 0 < q) :
    -a / Real.sqrt q ≤ 1 := by
  have h : 0 ≤ a / Real.sqrt q := div_nonneg ha (Real.sqrt_nonneg q)
  rw [neg_div]
  linarith

theorem neg_one_le_neg_div_sqrt (a q : ℝ) (ha : 0 < a) (hq : 0 < q)
    (key : a ^ 2 ≤ q) : (-1 : ℝ) ≤ -a / Real.sqrt q := by
  have h1 : a / Real.sqrt q ≤ 1 := div_sqrt_le_one a q ha hq key
  rw [neg_div]
  linarith

theorem neg_one_lt_neg_div_sqrt (a q : ℝ) (ha : 0 ≤ a) (hq : 0 < q)
    (key : a ^ 2 < q) : (-1 : ℝ) < -a / Real.sqrt q := by
  have h1 : a / Real.sqrt q < 1 := by
    rw [div_lt_one (Real.sqrt_pos.mpr hq)]
    exact (Real.lt_sqrt ha).mpr key
  rw [neg_div]
  linarith

theorem neg_div_sqrt_lt_neg_div_sqrt (a b p q : ℝ) (ha : 0 ≤ a) (hb : 0 ≤ b)
    (hp : 0 < p) (hq : 0 < q) (key : b ^ 2 * p < a ^ 2 * q) :
    -a / Real.sqrt p < -b / Real.sqrt q := by
  have h := div_sqrt_lt_div_sqrt b a q p hb ha hq hp key
  rw [neg_div, neg_div]
  linarith

theorem neg_div_sqrt_le_neg_div_sqrt (a b p q : ℝ) (ha : 0 ≤ a) (hb : 0 ≤ b)
    (hp : 0 < p) (hq : 0 < q) (key : b ^ 2 * p ≤ a ^ 2 * q) :
    -a / Real.sqrt p ≤ -b / Real.sqrt q := by
  have h := div_sqrt_le_div_sqrt b a q p hb ha hq hp key
  rw [neg_div, neg_div]
  linarith

theorem wrapPath_four (p1 p2 p3 p4 : Part) :
    wrapPath [p1, p2, p3, p4] = [{ p1 with arcStart := p4.arcStart }, p2, p3] := by
  simp [wrapPath, List.getLast?_cons_cons, List.getLast?_singleton, List.dropLast,
    List.modifyHead]

/-! ### The zigzag arrangement, evaluated -/

theorem withIdx_zigzag : withIdx zigzag 0 =
    [(0, ⟨⟨0, 0, 0⟩, 1⟩), (1, ⟨⟨1, 1, 0⟩, 1⟩), (2, ⟨⟨2, 5, 0⟩, 1⟩),
      (3, ⟨⟨3, 0, 0⟩, 1⟩)] := by
  simp [zigzag, withIdx]

theorem argminX_zigzag : argminX (withIdx zigzag 0) = some (0, ⟨⟨0, 0, 0⟩, 1⟩) := by
  rw [withIdx_zigzag]
  simp only [argminX, List.foldl]
  rw [if_neg (by norm_num :
      ¬ ((1, (⟨⟨1, 1, 0⟩, 1⟩ : Circle)).2.center.x
        < (0, (⟨⟨0, 0, 0⟩, 1⟩ : Circle)).2.center.x)),
    if_neg (by norm_num :
      ¬ ((2, (⟨⟨2, 5, 0⟩, 1⟩ : Circle)).2.center.x
        < (0, (⟨⟨0, 0, 0⟩, 1⟩ : Circle)).2.center.x)),
    if_neg (by norm_num :
      ¬ ((3, (⟨⟨3, 0, 0⟩, 1⟩ : Circle)).2.center.x
        < (0, (⟨⟨0, 0, 0⟩, 1⟩ : Circle)).2.center.x))]

/-- Specialized equal-radius tangent fact for unit circles, with the center
difference already normalized into `a/√q` components. -/
theorem zig_tangent (ax ay bx by' dx dy q : ℝ) (hdx : bx - ax = dx)
    (hdy : by' - ay = dy) (hq : 0 < q) (hsum : dx ^ 2 + dy ^ 2 = q)
    (hgap : (0.0001 : ℝ) ^ 2 ≤ q) :
    ∃ t, mkTangentLine ⟨⟨ax, ay, 0⟩, 1⟩ ⟨⟨bx, by', 0⟩, 1⟩ = .ok t ∧
      t.direction = Vec3.mk (dx / Real.sqrt q) (dy / Real.sqrt q) 0 := by
  obtain ⟨t, hok, hdir, -, -⟩ := mkTangentLine_equal_radius ax ay bx by' 1
    (by rw [hdx, hdy, hsum]; exact hgap)
  rw [hdx, hdy] at hdir
  exact ⟨t, hok, by rw [hdir, normal_div dx dy q hq hsum]⟩

/-- Full evaluation of the zigzag build: on four equal-radius circles with
strictly increasing x but varying y the greedy traversal runs 0 → 2 → 3 → 0,
never visiting circle 1, and closes after only three path parts. -/
theorem zigzag_run : ∃ parts : List Part,
    buildBeltPath zigzag 4 = some (.ok (parts, zigzag)) ∧
    parts.map Part.idx = [0, 2, 3] := by
  obtain ⟨t01, hok01, hdir01⟩ := zig_tangent 0 0 1 1 1 1 2
    (by norm_num) (by norm_num) (by norm_num) (by norm_num) (by norm_num)
  obtain ⟨t02, hok02, hdir02⟩ := zig_tangent 0 0 2 5 2 5 29
    (by norm_num) (by norm_num) (by norm_num) (by norm_num) (by norm_num)
  obtain ⟨t03, hok03, hdir03, -, -⟩ := mkTangentLine_row_right 0 3 0 1 (by norm_num)
  obtain ⟨t20, hok20, hdir20⟩ := zig_tangent 2 5 0 0 (-2) (-5) 29
    (by norm_num) (by norm_num) (by norm_num) (by norm_num) (by norm_num)
  obtain ⟨t21, hok21, hdir21⟩ := zig_tangent 2 5 1 1 (-1) (-4) 17
    (by norm_num) (by norm_num) (by norm_num) (by norm_num) (by norm_num)
  obtain ⟨t23, hok23, hdir23⟩ := zig_tangent 2 5 3 0 1 (-5) 26
    (by norm_num) (by norm_num) (by norm_num) (by norm_num) (by norm_num)
  obtain ⟨t30, hok30, hdir30, -, -⟩ := mkTangentLine_row_left 3 0 0 1 (by norm_num)
  obtain ⟨t31, hok31, hdir31⟩ := zig_tangent 3 0 1 1 (-2) 1 5
    (by norm_num) (by norm_num) (by norm_num) (by norm_num) (by norm_num)
  obtain ⟨t32, hok32, hdir32⟩ := zig_tangent 3 0 2 5 (-1) 5 26
    (by norm_num) (by norm_num) (by norm_num) (by norm_num) (by norm_num)
  have hfind0 : findExtTangent (0, ⟨⟨0, 0, 0⟩, 1⟩) ⟨0, 1, 0⟩ (withIdx zigzag 0) =
      .ok (some (t02, (2, ⟨⟨2, 5, 0⟩, 1⟩))) := by
    simp only [findExtTangent, withIdx_zigzag]
    rw [findExtLoop_skip (0, ⟨⟨0, 0, 0⟩, 1⟩) (0, ⟨⟨0, 0, 0⟩, 1⟩) ⟨0, 1, 0⟩
        [(1, ⟨⟨1, 1, 0⟩, 1⟩), (2, ⟨⟨2, 5, 0⟩, 1⟩), (3, ⟨⟨3, 0, 0⟩, 1⟩)] none rfl,
      findExtLoop_first (0, ⟨⟨0, 0, 0⟩, 1⟩) (1, ⟨⟨1, 1, 0⟩, 1⟩) ⟨0, 1, 0⟩
        [(2, ⟨⟨2, 5, 0⟩, 1⟩), (3, ⟨⟨3, 0, 0⟩, 1⟩)] t01 (by decide) hok01,
      hdir01, angle_up_div 1 1 2 (by norm_num) (by norm_num),
      findExtLoop_take (0, ⟨⟨0, 0, 0⟩, 1⟩) (2, ⟨⟨2, 5, 0⟩, 1⟩) ⟨0, 1, 0⟩
        [(3, ⟨⟨3, 0, 0⟩, 1⟩)] t02
        (Real.arccos (1 / Real.sqrt 2), t01, (1, ⟨⟨1, 1, 0⟩, 1⟩)) (by decide) hok02
        (by
          rw [hdir02, angle_up_div 2 5 29 (by norm_num) (by norm_num)]
          exact arccos_lt_arccos_of
            (le_trans (by norm_num : (-1:ℝ) ≤ 0) (by positivity))
            (div_sqrt_lt_div_sqrt 1 5 2 29 (by norm_num) (by norm_num) (by norm_num)
              (by norm_num) (by norm_num))
            (div_sqrt_le_one 5 29 (by norm_num) (by norm_num) (by norm_num))),
      hdir02, angle_up_div 2 5 29 (by norm_num) (by norm_num),
      findExtLoop_keep (0, ⟨⟨0, 0, 0⟩, 1⟩) (3, ⟨⟨3, 0, 0⟩, 1⟩) ⟨0, 1, 0⟩ [] t03
        (Real.arccos (5 / Real.sqrt 29), t02, (2, ⟨⟨2, 5, 0⟩, 1⟩)) (by decide) hok03
        (by
          rw [hdir03, angle_up_right, ← Real.arccos_zero]
          exact not_arccos_lt_arccos_of (by positivity)),
      findExtLoop_nil]
    rfl
  have hfind2 : findExtTangent (2, ⟨⟨2, 5, 0⟩, 1⟩)
      (Vec3.mk (2 / Real.sqrt 29) (5 / Real.sqrt 29) 0) (withIdx zigzag 0) =
      .ok (some (t23, (3, ⟨⟨3, 0, 0⟩, 1⟩))) := by
    simp only [findExtTangent, withIdx_zigzag]
    rw [findExtLoop_first (2, ⟨⟨2, 5, 0⟩, 1⟩) (0, ⟨⟨0, 0, 0⟩, 1⟩)
        (Vec3.mk (2 / Real.sqrt 29) (5 / Real.sqrt 29) 0)
        [(1, ⟨⟨1, 1, 0⟩, 1⟩), (2, ⟨⟨2, 5, 0⟩, 1⟩), (3, ⟨⟨3, 0, 0⟩, 1⟩)] t20
        (by decide) hok20,
      hdir20, angle_div 2 5 29 (-2) (-5) 29 (by norm_num) (by norm_num) (by norm_num)
        (by norm_num),
      show (2 * -2 + 5 * -5) / Real.sqrt (29 * 29) = (-1 : ℝ) from by
        rw [sqrt_eval (by norm_num : (0:ℝ) ≤ 29) (by norm_num : (29:ℝ) ^ 2 = 29 * 29)]
        norm_num,
      findExtLoop_take (2, ⟨⟨2, 5, 0⟩, 1⟩) (1, ⟨⟨1, 1, 0⟩, 1⟩)
        (Vec3.mk (2 / Real.sqrt 29) (5 / Real.sqrt 29) 0)
        [(2, ⟨⟨2, 5, 0⟩, 1⟩), (3, ⟨⟨3, 0, 0⟩, 1⟩)] t21
        (Real.arccos (-1), t20, (0, ⟨⟨0, 0, 0⟩, 1⟩)) (by decide) hok21
        (by
          rw [hdir21, angle_div 2 5 29 (-1) (-4) 17 (by norm_num) (by norm_num)
              (by norm_num) (by norm_num),
            show (2 * -1 + 5 * -4) / Real.sqrt (29 * 17) = (-22 : ℝ) / Real.sqrt 493
              from by
              rw [show ((29:ℝ) * 17) = 493 by norm_num]
              norm_num]
          exact arccos_lt_arccos_of le_rfl
            (neg_one_lt_neg_div_sqrt 22 493 (by norm_num) (by norm_num) (by norm_num))
            (neg_div_sqrt_le_one 22 493 (by norm_num) (by norm_num))),
      hdir21, angle_div 2 5 29 (-1) (-4) 17 (by norm_num) (by norm_num) (by norm_num)
        (by norm_num),
      show (2 * -1 + 5 * -4) / Real.sqrt (29 * 17) = (-22 : ℝ) / Real.sqrt 493 from by
        rw [show ((29:ℝ) * 17) = 493 by norm_num]
        norm_num,
      findExtLoop_skip (2, ⟨⟨2, 5, 0⟩, 1⟩) (2, ⟨⟨2, 5, 0⟩, 1⟩)
        (Vec3.mk (2 / Real.sqrt 29) (5 / Real.sqrt 29) 0) [(3, ⟨⟨3, 0, 0⟩, 1⟩)] _ rfl,
      findExtLoop_take (2, ⟨⟨2, 5, 0⟩, 1⟩) (3, ⟨⟨3, 0, 0⟩, 1⟩)
        (Vec3.mk (2 / Real.sqrt 29) (5 / Real.sqrt 29) 0) [] t23
        (Real.arccos (-22 / Real.sqrt 493), t21, (1, ⟨⟨1, 1, 0⟩, 1⟩)) (by decide) hok23
        (by
          rw [hdir23, angle_div 2 5 29 1 (-5) 26 (by norm_num) (by norm_num)
              (by norm_num) (by norm_num),
            show (2 * 1 + 5 * -5) / Real.sqrt (29 * 26) = (-23 : ℝ) / Real.sqrt 754
              from by
              rw [show ((29:ℝ) * 26) = 754 by norm_num]
              norm_num]
          exact arccos_lt_arccos_of
            (neg_one_le_neg_div_sqrt 22 493 (by norm_num) (by norm_num) (by norm_num))
            (neg_div_sqrt_lt_neg_div_sqrt 22 23 493 754 (by norm_num) (by norm_num)
              (by norm_num) (by norm_num) (by norm_num))
            (neg_div_sqrt_le_one 23 754 (by norm_num) (by norm_num))),
      findExtLoop_nil]
    rfl
  have hfind3 : findExtTangent (3, ⟨⟨3, 0, 0⟩, 1⟩)
      (Vec3.mk (1 / Real.sqrt 26) (-5 / Real.sqrt 26) 0) (withIdx zigzag 0) =
      .ok (some (t30, (0, ⟨⟨0, 0, 0⟩, 1⟩))) := by
    simp only [findExtTangent, withIdx_zigzag]
    rw [findExtLoop_first (3, ⟨⟨3, 0, 0⟩, 1⟩) (0, ⟨⟨0, 0, 0⟩, 1⟩)
        (Vec3.mk (1 / Real.sqrt 26) (-5 / Real.sqrt 26) 0)
        [(1, ⟨⟨1, 1, 0⟩, 1⟩), (2, ⟨⟨2, 5, 0⟩, 1⟩), (3, ⟨⟨3, 0, 0⟩, 1⟩)] t30
        (by decide) hok30,
      hdir30, angle_div_axis 1 (-5) 26 (-1) (by norm_num) (by norm_num) len_neg_unit_x,
      show (1 * -1 : ℝ) / Real.sqrt 26 = -1 / Real.sqrt 26 from by norm_num,
      findExtLoop_keep (3, ⟨⟨3, 0, 0⟩, 1⟩) (1, ⟨⟨1, 1, 0⟩, 1⟩)
        (Vec3.mk (1 / Real.sqrt 26) (-5 / Real.sqrt 26) 0)
        [(2, ⟨⟨2, 5, 0⟩, 1⟩), (3, ⟨⟨3, 0, 0⟩, 1⟩)] t31
        (Real.arccos (-1 / Real.sqrt 26), t30, (0, ⟨⟨0, 0, 0⟩, 1⟩)) (by decide) hok31
        (by
          rw [hdir31, angle_div 1 (-5) 26 (-2) 1 5 (by norm_num) (by norm_num)
              (by norm_num) (by norm_num),
            show (1 * -2 + -5 * 1) / Real.sqrt (26 * 5) = (-7 : ℝ) / Real.sqrt 130
              from by
              rw [show ((26:ℝ) * 5) = 130 by norm_num]
              norm_num]
          exact not_arccos_lt_arccos_of
            (neg_div_sqrt_le_neg_div_sqrt 7 1 130 26 (by norm_num) (by norm_num)
              (by norm_num) (by norm_num) (by norm_num))),
      findExtLoop_keep (3, ⟨⟨3, 0, 0⟩, 1⟩) (2, ⟨⟨2, 5, 0⟩, 1⟩)
        (Vec3.mk (1 / Real.sqrt 26) (-5 / Real.sqrt 26) 0) [(3, ⟨⟨3, 0, 0⟩, 1⟩)] t32
        (Real.arccos (-1 / Real.sqrt 26), t30, (0, ⟨⟨0, 0, 0⟩, 1⟩)) (by decide) hok32
        (by
          rw [hdir32, angle_div 1 (-5) 26 (-1) 5 26 (by norm_num) (by norm_num)
              (by norm_num) (by norm_num),
            show (1 * -1 + -5 * 5) / Real.sqrt (26 * 26) = (-1 : ℝ) from by
              rw [sqrt_eval (by norm_num : (0:ℝ) ≤ 26)
                (by norm_num : (26:ℝ) ^ 2 = 26 * 26)]
              norm_num]
          exact not_arccos_lt_arccos_of
            (neg_one_le_neg_div_sqrt 1 26 (by norm_num) (by norm_num) (by norm_num))),
      findExtLoop_skip (3, ⟨⟨3, 0, 0⟩, 1⟩) (3, ⟨⟨3, 0, 0⟩, 1⟩)
        (Vec3.mk (1 / Real.sqrt 26) (-5 / Real.sqrt 26) 0) [] _ rfl,
      findExtLoop_nil]
    rfl
  have h0 : buildBeltPath zigzag 4 = buildBeltPath zigzag 4 := rfl
  conv at h0 =>
    rhs
    simp only [buildBeltPath, argminX_zigzag]
    rw [show (4:ℕ) = 3 + 1 from rfl,
      beltLoop_step zigzag (withIdx zigzag 0) 3 none (0, ⟨⟨0, 0, 0⟩, 1⟩)
        (2, ⟨⟨2, 5, 0⟩, 1⟩) ⟨0, 1, 0⟩ _ t02 (by simp) hfind0]
    simp only [updateLast, mkPart, List.cons_append, List.nil_append, Option.getD_none,
      Option.getD_some, hdir02]
    simp only [show (3:ℕ) = 2 + 1 from rfl]
    rw [beltLoop_step zigzag (withIdx zigzag 0) 2 (some 0) (2, ⟨⟨2, 5, 0⟩, 1⟩)
        (3, ⟨⟨3, 0, 0⟩, 1⟩) (Vec3.mk (2 / Real.sqrt 29) (5 / Real.sqrt 29) 0) _
        t23 (by simp) hfind2]
    simp only [updateLast, mkPart, List.cons_append, List.nil_append, Option.getD_none,
      Option.getD_some, hdir23]
    rw [show (2:ℕ) = 1 + 1 from rfl,
      beltLoop_step zigzag (withIdx zigzag 0) 1 (some 0) (3, ⟨⟨3, 0, 0⟩, 1⟩)
        (0, ⟨⟨0, 0, 0⟩, 1⟩) (Vec3.mk (1 / Real.sqrt 26) (-5 / Real.sqrt 26) 0) _
        t30 (by simp) hfind3]
    simp only [updateLast, mkPart, List.cons_append, List.nil_append, Option.getD_none,
      Option.getD_some, hdir30]
    rw [beltLoop_exit zigzag (withIdx zigzag 0) 1 (some 0) (0, ⟨⟨0, 0, 0⟩, 1⟩)
      (Vec3.mk (-1) 0 0) _ rfl, wrapPath_four]
  exact ⟨_, h0, by simp⟩

/-! ### C2 -/

/-- C2 counterexample: the zigzag arrangement has strictly increasing
x-coordinates `0, 1, 2, 3` and equal radii, yet `_build_belt_path` closes the
belt after three parts, never visiting circle 1: the traversal is not a
Hamiltonian cycle and does not produce one part per circle. -/
theorem c2_counterexample :
    zigzag.map (fun c => c.center.x) = [0, 1, 2, 3] ∧
    zigzag.map Circle.radius = [1, 1, 1, 1] ∧
    ∃ parts, buildBeltPath zigzag zigzag.length = some (.ok (parts, zigzag)) ∧
      parts.map Part.idx = [0, 2, 3] ∧ parts.length ≠ zigzag.length ∧
      1 ∉ parts.map Part.idx := by
  refine ⟨by simp [zigzag], by simp [zigzag], ?_⟩
  obtain ⟨parts, hrun, hmap⟩ := zigzag_run
  have h3 : parts.length = 3 := by
    have h := congrArg List.length hmap
    simpa using h
  refine ⟨parts, ?_, hmap, ?_, ?_⟩
  · rw [show zigzag.length = 4 from rfl]
    exact hrun
  · rw [h3, show zigzag.length = 4 from rfl]
    decide
  · rw [hmap]
    decide

/-! ### List bookkeeping for the traversal on a collinear row -/

theorem withIdx_append (l1 l2 : List Circle) (i : ℕ) :
    withIdx (l1 ++ l2) i = withIdx l1 i ++ withIdx l2 (i + l1.length) := by
  induction l1 generalizing i with
  | nil => simp [withIdx]
  | cons c l ih =>
    simp only [List.cons_append, withIdx, List.length_cons]
    rw [show l.append l2 = l ++ l2 from rfl, ih,
      show i + (l.length + 1) = i + 1 + l.length by omega]

theorem withIdx_mem (l : List Circle) (i : ℕ) (node : ℕ × Circle)
    (h : node ∈ withIdx l i) : i ≤ node.1 ∧ node.1 < i + l.length ∧ node.2 ∈ l := by
  induction l generalizing i with
  | nil => simp [withIdx] at h
  | cons c l ih =>
    simp only [withIdx, List.mem_cons] at h
    rcases h with h | h
    · rw [h]
      exact ⟨le_refl i, by simp, List.mem_cons_self c l⟩
    · obtain ⟨h1, h2, h3⟩ := ih (i + 1) h
      exact ⟨by omega, by simp only [List.length_cons]; omega,
        List.mem_cons_of_mem c h3⟩

theorem foldl_min_keep (p : ℕ × Circle) : ∀ (rest : List (ℕ × Circle)),
    (∀ q ∈ rest, p.2.center.x ≤ q.2.center.x) →
    rest.foldl (fun best q => if q.2.center.x < best.2.center.x then q else best) p = p
  | [], _ => rfl
  | q :: rest, h => by
    rw [List.foldl_cons, if_neg (not_lt.mpr (h q (List.mem_cons_self q rest)))]
    exact foldl_min_keep p rest fun q' hq' => h q' (List.mem_cons_of_mem q hq')

theorem argminX_head (p : ℕ × Circle) (rest : List (ℕ × Circle))
    (h : ∀ q ∈ rest, p.2.center.x ≤ q.2.center.x) :
    argminX (p :: rest) = some p := by
  simp only [argminX, Option.some.injEq]
  exact foldl_min_keep p rest h

theorem findExtLoop_append (self : ℕ × Circle) (guide : Vec3)
    (A B : List (ℕ × Circle)) (b : Option (ℝ × TangentLine × (ℕ × Circle))) :
    findExtLoop self guide (A ++ B) b =
      (findExtLoop self guide A b).bind fun b2 => findExtLoop self guide B b2 := by
  induction A generalizing b with
  | nil => simp [findExtLoop, Except.bind]
  | cons node A ih =>
    by_cases h : node.1 = self.1
    · rw [List.cons_append, findExtLoop_skip self node guide (A ++ B) b h,
        findExtLoop_skip self node guide A b h, ih b]
    · rcases ht : mkTangentLine self.2 node.2 with e | t
      · rw [List.cons_append]
        simp only [findExtLoop, if_neg h, ht, Except.bind]
      · cases b with
        | none =>
          rw [List.cons_append]
          simp only [findExtLoop, if_neg h, ht]
          exact ih _
        | some bb =>
          rw [List.cons_append]
          simp only [findExtLoop, if_neg h, ht]
          by_cases hlt : guide.angle t.direction < bb.1
          · rw [if_pos hlt, if_pos hlt]
            exact ih _
          · rw [if_neg hlt, if_neg hlt]
            exact ih _

theorem findExtLoop_keep_all (self : ℕ × Circle) (guide : Vec3)
    (b : ℝ × TangentLine × (ℕ × Circle)) : ∀ (rest : List (ℕ × Circle)),
    (∀ node ∈ rest, ¬ node.1 = self.1 ∧
      ∃ t, mkTangentLine self.2 node.2 = .ok t ∧
        ¬ guide.angle t.direction < b.1) →
    findExtLoop self guide rest (some b) = .ok (some b)
  | [], _ => rfl
  | node :: rest, h => by
    obtain ⟨hne, t, ht, hkeep⟩ := h node (List.mem_cons_self node rest)
    rw [findExtLoop_keep self node guide rest t b hne ht hkeep]
    exact findExtLoop_keep_all self guide b rest
      fun n hn => h n (List.mem_cons_of_mem node hn)

theorem updateLast_map_idx (f : Part → Part) (hf : ∀ p, (f p).idx = p.idx) :
    ∀ l : List Part, (updateLast f l).map Part.idx = l.map Part.idx
  | [] => rfl
  | [a] => by simp [updateLast, hf]
  | a :: b :: rest => by
    simp only [updateLast, List.map_cons]
    rw [show (updateLast f (b :: rest)).map Part.idx = (b :: rest).map Part.idx
      from updateLast_map_idx f hf (b :: rest)]
    simp

theorem modifyHead_map_idx (g : Part → Part) (hg : ∀ p, (g p).idx = p.idx) :
    ∀ l : List Part, (l.modifyHead g).map Part.idx = l.map Part.idx
  | [] => rfl
  | a :: l => by simp [List.modifyHead, hg]

theorem map_dropLast_idx : ∀ l : List Part,
    l.dropLast.map Part.idx = (l.map Part.idx).dropLast
  | [] => rfl
  | [a] => rfl
  | a :: b :: l => by
    simp only [List.dropLast_cons₂, List.map_cons]
    rw [map_dropLast_idx (b :: l)]
    simp

theorem wrapPath_map_idx (l : List Part) (h : l ≠ []) :
    (wrapPath l).map Part.idx = (l.map Part.idx).dropLast := by
  obtain ⟨last, hl⟩ := Option.ne_none_iff_exists'.mp (mt List.getLast?_eq_none.mp h)
  simp only [wrapPath, hl]
  rw [modifyHead_map_idx (fun p => { p with arcStart := last.arcStart })
    (fun p => rfl), map_dropLast_idx]

/-- Candidate scan at the leftmost circle of a collinear row: the up guide
makes the same right angle with every rightward tangent, so the first
candidate (index 1) is selected; its tangent points right. -/
theorem scan_first (y0 r x0 x1 : ℝ) (w : List ℝ)
    (hgap1 : x0 + 0.0001 ≤ x1)
    (hrest : ∀ x ∈ w, x0 + 0.0001 ≤ x) :
    ∃ t, findExtTangent (0, rowCircle y0 r x0) ⟨0, 1, 0⟩
        (withIdx ((x0 :: x1 :: w).map (rowCircle y0 r)) 0)
      = .ok (some (t, (1, rowCircle y0 r x1))) ∧ t.direction = Vec3.mk 1 0 0 := by
  obtain ⟨t, hok, hdir, -, -⟩ := mkTangentLine_row_right x0 x1 y0 r hgap1
  refine ⟨t, ?_, hdir⟩
  have hnodes : withIdx ((x0 :: x1 :: w).map (rowCircle y0 r)) 0
      = (0, rowCircle y0 r x0) :: (1, rowCircle y0 r x1)
        :: withIdx (w.map (rowCircle y0 r)) 2 := by
    simp [withIdx]
  have hside : ∀ node ∈ withIdx (w.map (rowCircle y0 r)) 2,
      ¬ node.1 = (0, rowCircle y0 r x0).1 ∧
      ∃ t2, mkTangentLine (0, rowCircle y0 r x0).2 node.2 = .ok t2 ∧
        ¬ Vec3.angle ⟨0, 1, 0⟩ t2.direction
            < (Real.pi / 2, t, (1, rowCircle y0 r x1)).1 := by
    intro node hn
    obtain ⟨h1, h2, h3⟩ := withIdx_mem _ _ _ hn
    obtain ⟨x, hxw, hx⟩ := List.mem_map.mp h3
    obtain ⟨t2, hok2, hdir2, -, -⟩ := mkTangentLine_row_right x0 x y0 r (hrest x hxw)
    refine ⟨by show ¬ node.1 = 0; omega, t2, ?_, ?_⟩
    · rw [← hx]
      exact hok2
    · rw [hdir2, angle_up_right]
      exact lt_irrefl _
  simp only [findExtTangent]
  rw [hnodes,
    findExtLoop_skip (0, rowCircle y0 r x0) (0, rowCircle y0 r x0) ⟨0, 1, 0⟩ _ none rfl,
    findExtLoop_first (0, rowCircle y0 r x0) (1, rowCircle y0 r x1) ⟨0, 1, 0⟩
      (withIdx (w.map (rowCircle y0 r)) 2) t (by show ¬ (1:ℕ) = 0; omega) hok,
    hdir, angle_up_right,
    findExtLoop_keep_all (0, rowCircle y0 r x0) ⟨0, 1, 0⟩
      (Real.pi / 2, t, (1, rowCircle y0 r x1)) (withIdx (w.map (rowCircle y0 r)) 2)
      hside]
  rfl

/-- Candidate scan at an interior circle of a collinear row, arriving from
the left: every leftward tangent makes angle `π` with the guide and every
rightward one angle `0`, so the first circle strictly to the right (the next
index) is selected. -/
theorem scan_mid (y0 r x0 : ℝ) (u : List ℝ) (xk xn : ℝ) (w : List ℝ)
    (hleft0 : x0 + 0.0001 ≤ xk)
    (hleft : ∀ x ∈ u, x + 0.0001 ≤ xk)
    (hnext : xk + 0.0001 ≤ xn)
    (hrest : ∀ x ∈ w, xk + 0.0001 ≤ x) :
    ∃ t, findExtTangent ((x0 :: u).length, rowCircle y0 r xk) ⟨1, 0, 0⟩
        (withIdx (((x0 :: u) ++ xk :: xn :: w).map (rowCircle y0 r)) 0)
      = .ok (some (t, ((x0 :: u).length + 1, rowCircle y0 r xn))) ∧
      t.direction = Vec3.mk 1 0 0 := by
  obtain ⟨tR, hokR, hdirR, -, -⟩ := mkTangentLine_row_right xk xn y0 r hnext
  obtain ⟨tL, hokL, hdirL, -, -⟩ := mkTangentLine_row_left xk x0 y0 r hleft0
  refine ⟨tR, ?_, hdirR⟩
  simp only [findExtTangent, List.length_cons]
  have hnodes : withIdx (((x0 :: u) ++ xk :: xn :: w).map (rowCircle y0 r)) 0
      = ((0, rowCircle y0 r x0) :: withIdx (u.map (rowCircle y0 r)) 1)
        ++ (u.length + 1, rowCircle y0 r xk)
          :: (u.length + 1 + 1, rowCircle y0 r xn)
          :: withIdx (w.map (rowCircle y0 r)) (u.length + 1 + 1 + 1) := by
    rw [List.map_append, withIdx_append]
    simp only [List.map_cons, List.map_nil, List.length_cons, List.length_map,
      withIdx, zero_add]
  have hsideL : ∀ node ∈ withIdx (u.map (rowCircle y0 r)) 1,
      ¬ node.1 = (u.length + 1, rowCircle y0 r xk).1 ∧
      ∃ t2, mkTangentLine (u.length + 1, rowCircle y0 r xk).2 node.2 = .ok t2 ∧
        ¬ Vec3.angle ⟨1, 0, 0⟩ t2.direction
            < (Real.pi, tL, (0, rowCircle y0 r x0)).1 := by
    intro node hn
    obtain ⟨h1, h2, h3⟩ := withIdx_mem _ _ _ hn
    rw [List.length_map] at h2
    obtain ⟨x, hxu, hx⟩ := List.mem_map.mp h3
    obtain ⟨t2, hok2, hdir2, -, -⟩ := mkTangentLine_row_left xk x y0 r (hleft x hxu)
    refine ⟨by show ¬ node.1 = u.length + 1; omega, t2, ?_, ?_⟩
    · rw [← hx]
      exact hok2
    · rw [hdir2, angle_right_left]
      exact lt_irrefl _
  have hsideR : ∀ node ∈ withIdx (w.map (rowCircle y0 r)) (u.length + 1 + 1 + 1),
      ¬ node.1 = (u.length + 1, rowCircle y0 r xk).1 ∧
      ∃ t2, mkTangentLine (u.length + 1, rowCircle y0 r xk).2 node.2 = .ok t2 ∧
        ¬ Vec3.angle ⟨1, 0, 0⟩ t2.direction
            < ((0:ℝ), tR, (u.length + 1 + 1, rowCircle y0 r xn)).1 := by
    intro node hn
    obtain ⟨h1, h2, h3⟩ := withIdx_mem _ _ _ hn
    obtain ⟨x, hxw, hx⟩ := List.mem_map.mp h3
    obtain ⟨t2, hok2, hdir2, -, -⟩ := mkTangentLine_row_right xk x y0 r (hrest x hxw)
    refine ⟨by show ¬ node.1 = u.length + 1; omega, t2, ?_, ?_⟩
    · rw [← hx]
      exact hok2
    · rw [hdir2, angle_right_right]
      exact lt_irrefl _
  rw [hnodes, findExtLoop_append,
    findExtLoop_first (u.length + 1, rowCircle y0 r xk) (0, rowCircle y0 r x0)
      ⟨1, 0, 0⟩ (withIdx (u.map (rowCircle y0 r)) 1) tL
      (by show ¬ (0:ℕ) = u.length + 1; omega) hokL,
    hdirL, angle_right_left,
    findExtLoop_keep_all (u.length + 1, rowCircle y0 r xk) ⟨1, 0, 0⟩
      (Real.pi, tL, (0, rowCircle y0 r x0)) (withIdx (u.map (rowCircle y0 r)) 1)
      hsideL]
  simp only [Except.bind]
  rw [findExtLoop_skip (u.length + 1, rowCircle y0 r xk)
      (u.length + 1, rowCircle y0 r xk) ⟨1, 0, 0⟩ _ _ rfl,
    findExtLoop_take (u.length + 1, rowCircle y0 r xk)
      (u.length + 1 + 1, rowCircle y0 r xn) ⟨1, 0, 0⟩
      (withIdx (w.map (rowCircle y0 r)) (u.length + 1 + 1 + 1)) tR
      (Real.pi, tL, (0, rowCircle y0 r x0))
      (by show ¬ u.length + 1 + 1 = u.length + 1; omega) hokR
      (by
        rw [hdirR, angle_right_right]
        exact Real.pi_pos),
    hdirR, angle_right_right,
    findExtLoop_keep_all (u.length + 1, rowCircle y0 r xk) ⟨1, 0, 0⟩
      ((0:ℝ), tR, (u.length + 1 + 1, rowCircle y0 r xn))
      (withIdx (w.map (rowCircle y0 r)) (u.length + 1 + 1 + 1)) hsideR]
  rfl

/-- Candidate scan at the rightmost circle of a collinear row, arriving from
the left: every candidate tangent points left at angle `π`, so the first one
(the starting circle, index 0) is kept. -/
theorem scan_last (y0 r x0 : ℝ) (u : List ℝ) (xk : ℝ)
    (hleft0 : x0 + 0.0001 ≤ xk)
    (hleft : ∀ x ∈ u, x + 0.0001 ≤ xk) :
    ∃ t, findExtTangent ((x0 :: u).length, rowCircle y0 r xk) ⟨1, 0, 0⟩
        (withIdx (((x0 :: u) ++ [xk]).map (rowCircle y0 r)) 0)
      = .ok (some (t, (0, rowCircle y0 r x0))) := by
  obtain ⟨tL, hokL, hdirL, -, -⟩ := mkTangentLine_row_left xk x0 y0 r hleft0
  refine ⟨tL, ?_⟩
  simp only [findExtTangent, List.length_cons]
  have hnodes : withIdx (((x0 :: u) ++ [xk]).map (rowCircle y0 r)) 0
      = ((0, rowCircle y0 r x0) :: withIdx (u.map (rowCircle y0 r)) 1)
        ++ [(u.length + 1, rowCircle y0 r xk)] := by
    rw [List.map_append, withIdx_append]
    simp only [List.map_cons, List.map_nil, List.length_cons, List.length_map,
      withIdx, zero_add]
  have hsideL : ∀ node ∈ withIdx (u.map (rowCircle y0 r)) 1,
      ¬ node.1 = (u.length + 1, rowCircle y0 r xk).1 ∧
      ∃ t2, mkTangentLine (u.length + 1, rowCircle y0 r xk).2 node.2 = .ok t2 ∧
        ¬ Vec3.angle ⟨1, 0, 0⟩ t2.direction
            < (Real.pi, tL, (0, rowCircle y0 r x0)).1 := by
    intro node hn
    obtain ⟨h1, h2, h3⟩ := withIdx_mem _ _ _ hn
    rw [List.length_map] at h2
    obtain ⟨x, hxu, hx⟩ := List.mem_map.mp h3
    obtain ⟨t2, hok2, hdir2, -, -⟩ := mkTangentLine_row_left xk x y0 r (hleft x hxu)
    refine ⟨by show ¬ node.1 = u.length + 1; omega, t2, ?_, ?_⟩
    · rw [← hx]
      exact hok2
    · rw [hdir2, angle_right_left]
      exact lt_irrefl _
  rw [hnodes, findExtLoop_append,
    findExtLoop_first (u.length + 1, rowCircle y0 r xk) (0, rowCircle y0 r x0)
      ⟨1, 0, 0⟩ (withIdx (u.map (rowCircle y0 r)) 1) tL
      (by show ¬ (0:ℕ) = u.length + 1; omega) hokL,
    hdirL, angle_right_left,
    findExtLoop_keep_all (u.length + 1, rowCircle y0 r xk) ⟨1, 0, 0⟩
      (Real.pi, tL, (0, rowCircle y0 r x0)) (withIdx (u.map (rowCircle y0 r)) 1)
      hsideL]
  simp only [Except.bind]
  rw [findExtLoop_skip (u.length + 1, rowCircle y0 r xk)
      (u.length + 1, rowCircle y0 r xk) ⟨1, 0, 0⟩ [] _ rfl,
    findExtLoop_nil]
  rfl

/-- The traversal loop on a collinear row, started at an interior circle
with the rightward guide: it walks right one circle per iteration, returns
to circle 0 from the rightmost circle, and closes; the produced parts append
the remaining indices and the final duplicate entry is dropped. -/
theorem loop_run (y0 r x0 : ℝ) (xs : List ℝ) : ∀ (w u : List ℝ) (xk : ℝ),
    xs = (x0 :: u) ++ xk :: w →
    (∀ x ∈ x0 :: u, x + 0.0001 ≤ xk) →
    List.Pairwise (fun a b => a + 0.0001 ≤ b) (xk :: w) →
    ∀ path : List Part,
    ∃ parts, beltLoop (xs.map (rowCircle y0 r)) (withIdx (xs.map (rowCircle y0 r)) 0)
        (w.length + 1) (some 0) ((x0 :: u).length, rowCircle y0 r xk) ⟨1, 0, 0⟩ path
      = some (.ok (parts, xs.map (rowCircle y0 r))) ∧
      parts.map Part.idx =
        (path.map Part.idx
          ++ (List.range' ((x0 :: u).length + 1) w.length ++ [0])).dropLast := by
  intro w
  induction w with
  | nil =>
    intro u xk hxs hleft hpw path
    obtain ⟨t, hfind⟩ := scan_last y0 r x0 u xk
      (hleft x0 (List.mem_cons_self x0 u))
      (fun x hx => hleft x (List.mem_cons_of_mem x0 hx))
    rw [← hxs] at hfind
    refine ⟨wrapPath (updateLast (fun p =>
        { p with arcEnd := t.normal * p.circle.radius + p.circle.center,
                 tangent := some t }) path
      ++ [mkPart (0, rowCircle y0 r x0) t]), ?_, ?_⟩
    · rw [beltLoop_step (xs.map (rowCircle y0 r)) (withIdx (xs.map (rowCircle y0 r)) 0)
        (List.length ([] : List ℝ)) (some 0) ((x0 :: u).length, rowCircle y0 r xk)
        (0, rowCircle y0 r x0) ⟨1, 0, 0⟩ path t
        (by simp) hfind]
      simp only [Option.getD_some]
      exact beltLoop_exit _ _ _ _ _ _ _ rfl
    · have hne2 : (updateLast (fun p =>
          { p with arcEnd := t.normal * p.circle.radius + p.circle.center,
                   tangent := some t }) path
          ++ [mkPart (0, rowCircle y0 r x0) t]) ≠ [] := by
        apply List.ne_nil_of_length_pos
        simp
      rw [wrapPath_map_idx _ hne2, List.map_append,
        updateLast_map_idx (fun p =>
          { p with arcEnd := t.normal * p.circle.radius + p.circle.center,
                   tangent := some t }) (fun p => rfl) path]
      simp [List.range']
  | cons xn w' ih =>
    intro u xk hxs hleft hpw path
    have hxkn : xk + 0.0001 ≤ xn :=
      (List.pairwise_cons.mp hpw).1 xn (List.mem_cons_self xn w')
    have hrest : ∀ x ∈ w', xk + 0.0001 ≤ x :=
      fun x hx => (List.pairwise_cons.mp hpw).1 x (List.mem_cons_of_mem xn hx)
    obtain ⟨t, hfind, hdir⟩ := scan_mid y0 r x0 u xk xn w'
      (hleft x0 (List.mem_cons_self x0 u))
      (fun x hx => hleft x (List.mem_cons_of_mem x0 hx)) hxkn hrest
    rw [← hxs] at hfind
    have hxs2 : xs = (x0 :: (u ++ [xk])) ++ xn :: w' := by
      rw [hxs]
      simp
    have hleft2 : ∀ x ∈ x0 :: (u ++ [xk]), x + 0.0001 ≤ xn := by
      intro x hx
      rcases List.mem_cons.mp hx with h | h
      · subst h
        have := hleft x (List.mem_cons_self x u)
        linarith
      · rcases List.mem_append.mp h with h2 | h2
        · have := hleft x (List.mem_cons_of_mem x0 h2)
          linarith
        · rw [List.mem_singleton.mp h2]
          exact hxkn
    obtain ⟨parts, hrun, hmap⟩ := ih (u ++ [xk]) xn hxs2 hleft2
      (List.pairwise_cons.mp hpw).2
      (updateLast (fun p =>
          { p with arcEnd := t.normal * p.circle.radius + p.circle.center,
                   tangent := some t }) path
        ++ [mkPart (u.length + 1 + 1, rowCircle y0 r xn) t])
    simp only [List.length_cons, List.length_append, List.length_nil, zero_add]
      at hrun hmap
    refine ⟨parts, ?_, ?_⟩
    · simp only [List.length_cons]
      rw [beltLoop_step (xs.map (rowCircle y0 r)) (withIdx (xs.map (rowCircle y0 r)) 0)
        (w'.length + 1) (some 0) (u.length + 1, rowCircle y0 r xk)
        (u.length + 1 + 1, rowCircle y0 r xn) ⟨1, 0, 0⟩ path t
        (by simp) hfind]
      simp only [Option.getD_some]
      rw [hdir]
      exact hrun
    · have hpm : (updateLast (fun p =>
          { p with arcEnd := t.normal * p.circle.radius + p.circle.center,
                   tangent := some t }) path
          ++ [mkPart (u.length + 1 + 1, rowCircle y0 r xn) t]).map Part.idx
          = path.map Part.idx ++ [u.length + 1 + 1] := by
        rw [List.map_append,
          updateLast_map_idx (fun p =>
            { p with arcEnd := t.normal * p.circle.radius + p.circle.center,
                     tangent := some t }) (fun p => rfl) path]
        rfl
      rw [hpm] at hmap
      simp only [List.length_cons]
      rw [List.range'_succ, hmap]
      simp [List.append_assoc]

/-- Full build on a collinear equal-radius row of `N ≥ 2` circles listed with
increasing x: the path exists, the circles come back unchanged and the parts
are exactly one per circle, in index order. -/
theorem row_build (y0 r x0 x1 : ℝ) (rest : List ℝ)
    (hpw : List.Pairwise (fun a b => a + 0.0001 ≤ b) (x0 :: x1 :: rest)) :
    ∃ parts,
      buildBeltPath ((x0 :: x1 :: rest).map (rowCircle y0 r))
          ((x0 :: x1 :: rest).map (rowCircle y0 r)).length
        = some (.ok (parts, (x0 :: x1 :: rest).map (rowCircle y0 r))) ∧
      parts.map Part.idx = List.range (x0 :: x1 :: rest).length := by
  have hgap01 : x0 + 0.0001 ≤ x1 :=
    (List.pairwise_cons.mp hpw).1 x1 (List.mem_cons_self x1 rest)
  have hgap0rest : ∀ x ∈ rest, x0 + 0.0001 ≤ x :=
    fun x hx => (List.pairwise_cons.mp hpw).1 x (List.mem_cons_of_mem x1 hx)
  obtain ⟨t, hfind, hdir⟩ := scan_first y0 r x0 x1 rest hgap01 hgap0rest
  have hmin : argminX (withIdx ((x0 :: x1 :: rest).map (rowCircle y0 r)) 0)
      = some (0, rowCircle y0 r x0) := by
    have hnodes : withIdx ((x0 :: x1 :: rest).map (rowCircle y0 r)) 0
        = (0, rowCircle y0 r x0)
          :: withIdx ((x1 :: rest).map (rowCircle y0 r)) 1 := by
      simp [withIdx]
    rw [hnodes]
    apply argminX_head
    intro q hq
    obtain ⟨h1, h2, h3⟩ := withIdx_mem _ _ _ hq
    obtain ⟨x, hx_mem, hx⟩ := List.mem_map.mp h3
    rw [← hx]
    show x0 ≤ x
    have hgap : x0 + 0.0001 ≤ x := by
      rcases List.mem_cons.mp hx_mem with h | h
      · rw [h]
        exact hgap01
      · exact hgap0rest x h
    linarith
  obtain ⟨parts, hrun, hmap⟩ := loop_run y0 r x0 (x0 :: x1 :: rest) rest [] x1
    (by simp)
    (by
      intro x hx
      rw [List.mem_singleton.mp hx]
      exact hgap01)
    (List.pairwise_cons.mp hpw).2
    (updateLast (fun p =>
        { p with arcEnd := t.normal * p.circle.radius + p.circle.center,
                 tangent := some t })
        [{ idx := 0, circle := rowCircle y0 r x0, arcStart := 0, arcEnd := 0,
           tangent := none }]
      ++ [mkPart (1, rowCircle y0 r x1) t])
  refine ⟨parts, ?_, ?_⟩
  · simp only [buildBeltPath, hmin, List.length_map, List.length_cons]
    rw [beltLoop_step ((x0 :: x1 :: rest).map (rowCircle y0 r))
      (withIdx ((x0 :: x1 :: rest).map (rowCircle y0 r)) 0) (rest.length + 1) none
      (0, rowCircle y0 r x0) (1, rowCircle y0 r x1) ⟨0, 1, 0⟩
      [{ idx := 0, circle := rowCircle y0 r x0, arcStart := 0, arcEnd := 0,
         tangent := none }] t (by simp) hfind]
    simp only [Option.getD_none]
    rw [hdir]
    exact hrun
  · have hpm : (updateLast (fun p : Part =>
        { p with arcEnd := t.normal * p.circle.radius + p.circle.center,
                 tangent := some t })
        [Part.mk 0 (rowCircle y0 r x0) 0 0 none]
      ++ [mkPart (1, rowCircle y0 r x1) t]).map Part.idx = [0, 1] := rfl
    rw [hmap, hpm, show ((x0 :: ([] : List ℝ)).length + 1) = 2 from rfl]
    have hrange : List.range (x0 :: x1 :: rest).length
        = 0 :: 1 :: List.range' 2 rest.length := by
      simp only [List.length_cons]
      rw [List.range_eq_range', List.range'_succ, List.range'_succ]
    rw [hrange, ← List.append_assoc, List.dropLast_concat]
    rfl

/-- Circles with a common row shape are reconstructed from their
x-coordinates. -/
theorem row_map_id (y0 r : ℝ) : ∀ (l : List Circle),
    (∀ c ∈ l, c.center.y = y0 ∧ c.center.z = 0 ∧ c.radius = r) →
    l.map (fun c => rowCircle y0 r c.center.x) = l
  | [], _ => rfl
  | c :: l, h => by
    obtain ⟨hy, hz, hr⟩ := h c (List.mem_cons_self c l)
    rw [List.map_cons,
      row_map_id y0 r l (fun c2 hc2 => h c2 (List.mem_cons_of_mem c hc2))]
    rcases c with ⟨⟨cx, cy, cz⟩, cr⟩
    have hy2 : cy = y0 := hy
    have hz2 : cz = 0 := hz
    have hr2 : cr = r := hr
    subst hy2
    subst hz2
    subst hr2
    rfl

/-- C2 amended: for `N ≥ 2` equal-radius circles lying on one horizontal
line of the working plane, listed with strictly increasing x-coordinates
(adjacent gaps at least `1e-4`), `_build_belt_path` terminates within `N`
iterations, visits every circle exactly once in list order, returns to the
starting (leftmost) circle, and produces exactly one part per circle.  The
collinearity assumption is essential: equal radius and increasing x alone do
not guarantee this (see the counterexample). -/
theorem c2_collinear_traversal (y0 r : ℝ) (cs : List Circle)
    (hlen : 2 ≤ cs.length)
    (hrow : ∀ c ∈ cs, c.center.y = y0 ∧ c.center.z = 0 ∧ c.radius = r)
    (hgap : cs.Pairwise fun a b => a.center.x + 0.0001 ≤ b.center.x) :
    ∃ parts, buildBeltPath cs cs.length = some (.ok (parts, cs)) ∧
      parts.map Part.idx = List.range cs.length := by
  have hcs : (cs.map fun c => c.center.x).map (rowCircle y0 r) = cs := by
    rw [List.map_map]
    exact row_map_id y0 r cs hrow
  rcases hxs : cs.map (fun c => c.center.x) with _ | ⟨a0, l⟩
  · exfalso
    have hl := congrArg List.length hxs
    simp only [List.length_map, List.length_nil] at hl
    omega
  rcases l with _ | ⟨a1, rest⟩
  · exfalso
    have hl := congrArg List.length hxs
    simp only [List.length_map, List.length_cons, List.length_nil] at hl
    omega
  have hpw : List.Pairwise (fun a b => a + 0.0001 ≤ b) (a0 :: a1 :: rest) := by
    rw [← hxs]
    exact List.pairwise_map.mpr hgap
  obtain ⟨parts, hrun, hmap⟩ := row_build y0 r a0 a1 rest hpw
  rw [hxs] at hcs
  rw [hcs] at hrun
  have hlen2 : (a0 :: a1 :: rest).length = cs.length := by
    rw [← hxs, List.length_map]
  rw [hlen2] at hmap
  exact ⟨parts, hrun, hmap⟩

/-- C2 witness: the two equal unit circles at x-distance `1/6000 ≥ 1e-4`
satisfy the amended hypotheses, and the build returns one part per circle in
index order. -/
theorem c2_collinear_traversal_witness :
    (2 ≤ smallPair.length ∧
      (∀ c ∈ smallPair, c.center.y = 0 ∧ c.center.z = 0 ∧ c.radius = 1) ∧
      smallPair.Pairwise (fun a b => a.center.x + 0.0001 ≤ b.center.x)) ∧
    (∃ parts, buildBeltPath smallPair smallPair.length
        = some (.ok (parts, smallPair)) ∧
      parts.map Part.idx = List.range smallPair.length) := by
  have hrow : ∀ c ∈ smallPair, c.center.y = 0 ∧ c.center.z = 0 ∧ c.radius = 1 := by
    intro c hc
    rcases List.mem_cons.mp hc with h | h2
    · rw [h]
      exact ⟨rfl, rfl, rfl⟩
    · rw [List.mem_singleton.mp h2]
      exact ⟨rfl, rfl, rfl⟩
  have hpw : smallPair.Pairwise (fun a b => a.center.x + 0.0001 ≤ b.center.x) := by
    refine List.Pairwise.cons ?_ (List.pairwise_singleton _ _)
    intro b hb
    rw [List.mem_singleton.mp hb]
    show cS0.center.x + 0.0001 ≤ cS1.center.x
    norm_num [cS0, cS1]
  exact ⟨⟨by decide, hrow, hpw⟩,
    c2_collinear_traversal 0 1 smallPair (by decide) hrow hpw⟩

end BeltRig
